import Mathlib

/-!
# CyclicBuffer

A shallow embedding of `src/lib/cyclic_buffer.h` (class template
`cyclicbuffer::CyclicBuffer<T>`) and a verification of its specification.

Conventions of the embedding:

* `size_t` is the 64-bit unsigned type of an LP64 platform and `signed long`
  the 64-bit signed one; every `size_t` expression of the source is written
  with `sizeAdd` / `sizeSub`, which reduce modulo `2 ^ 64`.
* the block that `mBuffer` points to is a `List α`; its length is the number
  of elements of the block that `malloc` returned.
* member functions that can throw, or whose behaviour is undefined in C++
  (an access outside a block, `% 0`), return `Except (Fault α) _`; a thrown
  exception carries the state in which the object is left.
* the diagnostic text written to `std::cout` is not part of the model.
* the default build is modelled: `UPDATE_PTR_MANUALLY` is not defined, so the
  bulk transfers advance the cursors themselves.
* what the allocator answers (`malloc` in the constructor, `realloc` in
  `Resize`) and the size `sizeof(T)` of an element in bytes are arguments of
  the function that asks; byte counts are `size_t` products.
-/

namespace cyclicbuffer

/-! ## Machine arithmetic -/

/-- Number of values of `size_t`: `2 ^ 64`. -/
def SIZE_MOD : Nat := 18446744073709551616

/-- Largest size in bytes of any object, `2 ^ 63 - 1`; no allocated block has
more elements than this. -/
def PTRDIFF_MAX : Nat := 9223372036854775807

/-- Addition `a + b` of two `size_t` values. -/
def sizeAdd (a b : Nat) : Nat := (a + b) % SIZE_MOD

/-- Subtraction `a - b` of two `size_t` values (wraps below zero). -/
def sizeSub (a b : Nat) : Nat := (a % SIZE_MOD + (SIZE_MOD - b % SIZE_MOD)) % SIZE_MOD

/-- Multiplication `a * b` of two `size_t` values. -/
def sizeMul (a b : Nat) : Nat := (a * b) % SIZE_MOD

/-- Number of whole elements in a block of `sizeof(T) * count` bytes, where
`sizeofT` is `sizeof(T)` and the byte count is the `size_t` product that the
source hands to `malloc`, `memset` and `realloc`. -/
def blockLength (sizeofT count : Nat) : Nat := sizeMul sizeofT count / sizeofT

/-- Conversion of a `size_t` argument to the `signed long` parameter of
`UpdateReadPtr` / `UpdateWritePtr` (two's complement). -/
def toSignedLong (n : Nat) : Int :=
  if n % SIZE_MOD ≤ PTRDIFF_MAX then ((n % SIZE_MOD : Nat) : Int)
  else ((n % SIZE_MOD : Nat) : Int) - (SIZE_MOD : Int)

/-- Conversion of a `signed long` to `size_t`, as the usual arithmetic
conversions do in `mReadPtr + len`. -/
def toSizeT (i : Int) : Nat := (i % (SIZE_MOD : Int)).toNat

/-! ## Exceptions -/

/-- The `std::runtime_error`s thrown by the source, named after their text. -/
inductive Thrown where
  /-- Constructor: `malloc` returned `NULL`. -/
  | mallocFailed
  /-- PushBack: "NO space for new data!". -/
  | noSpace
  /-- PopFront: "NO data in Buffer!". -/
  | noData
  /-- Indexing operator: "Out of the data length in buffer!". -/
  | outOfDataLength
  deriving DecidableEq, Repr

/-! ## Data model -/

/-- The four data members of `CyclicBuffer<T>`. -/
structure CyclicBuffer (α : Type) where
  /-- Capacity in elements. -/
  mBufferSize : Nat
  /-- Read cursor. -/
  mReadPtr : Nat
  /-- Write cursor. -/
  mWritePtr : Nat
  /-- The allocated block. -/
  mBuffer : List α
  deriving DecidableEq, Repr

/-- The ways a member function can stop without returning: an exception,
together with the state the object is left in, or undefined behaviour of the
C++ program (an access outside an allocated block, a remainder by zero). -/
inductive Fault (α : Type) where
  | thrown (e : Thrown) (state : CyclicBuffer α)
  | undefinedBehaviour
  deriving DecidableEq, Repr

variable {α : Type}

/-- The block `dst` after the elements `src[srcOff .. srcOff + n)` have
replaced `dst[dstOff .. dstOff + n)`. -/
def blockCopy (dst : List α) (dstOff : Nat) (src : List α) (srcOff n : Nat) : List α :=
  dst.take dstOff ++ (src.drop srcOff).take n ++ dst.drop (dstOff + n)

/-- The library function `memcpy(dst + dstOff, src + srcOff, sizeof(T) * n)`
on element blocks, `n` counting elements. Undefined when a range leaves its
block. -/
def memcpy (dst : List α) (dstOff : Nat) (src : List α) (srcOff n : Nat) :
    Except (Fault α) (List α) :=
  if dstOff + n ≤ dst.length ∧ srcOff + n ≤ src.length then
    .ok (blockCopy dst dstOff src srcOff n)
  else
    .error .undefinedBehaviour

/-- The constructor `CyclicBuffer(size_t bufferSize)` for an element type of
`sizeofT` bytes. The flag `mallocOk` tells whether `malloc` returned a block;
the block has the `sizeof(T) * bufferSize` bytes of the `size_t` product, that
is `blockLength sizeofT bufferSize` elements, and `memset` zeroes them. The
cursors start at 0 and 2. -/
def construct [Zero α] (sizeofT bufferSize : Nat) (mallocOk : Bool) :
    Except Thrown (CyclicBuffer α) :=
  if mallocOk then
    .ok { mBufferSize := bufferSize, mReadPtr := 0, mWritePtr := 2,
          mBuffer := List.replicate (blockLength sizeofT bufferSize) 0 }
  else
    .error .mallocFailed

/-- The member function `ReadSpace`. -/
def ReadSpace (s : CyclicBuffer α) : Nat :=
  if s.mReadPtr < s.mWritePtr ∧ sizeSub s.mWritePtr s.mReadPtr > 1 then
    sizeSub (sizeSub s.mWritePtr s.mReadPtr) 1
  else if s.mReadPtr > s.mWritePtr ∧
      sizeSub (sizeAdd s.mBufferSize s.mWritePtr) s.mReadPtr > 1 then
    sizeSub (sizeSub (sizeAdd s.mBufferSize s.mWritePtr) s.mReadPtr) 1
  else
    0

/-- The member function `WriteSpace`. -/
def WriteSpace (s : CyclicBuffer α) : Nat :=
  if s.mReadPtr ≤ s.mWritePtr ∧
      sizeSub (sizeAdd s.mBufferSize s.mReadPtr) s.mWritePtr > 1 then
    sizeSub (sizeSub (sizeAdd s.mBufferSize s.mReadPtr) s.mWritePtr) 1
  else if s.mReadPtr > s.mWritePtr ∧ sizeSub s.mReadPtr s.mWritePtr > 1 then
    sizeSub (sizeSub s.mReadPtr s.mWritePtr) 1
  else
    0

/-- The member function `UpdateReadPtr(signed long len)`:
`mReadPtr = (mReadPtr + len) % mBufferSize`. -/
def UpdateReadPtr (s : CyclicBuffer α) (len : Int) : Except (Fault α) (CyclicBuffer α) :=
  if s.mBufferSize = 0 then .error .undefinedBehaviour
  else .ok { s with mReadPtr := sizeAdd s.mReadPtr (toSizeT len) % s.mBufferSize }

/-- The member function `UpdateWritePtr(signed long len)`:
`mWritePtr = (mWritePtr + len) % mBufferSize`. -/
def UpdateWritePtr (s : CyclicBuffer α) (len : Int) : Except (Fault α) (CyclicBuffer α) :=
  if s.mBufferSize = 0 then .error .undefinedBehaviour
  else .ok { s with mWritePtr := sizeAdd s.mWritePtr (toSizeT len) % s.mBufferSize }

/-- The member function `WriteToBuffer(inPtr, writeLength)`. `inPtr` is the
caller's source block. The result is the returned `bool` and the new state. -/
def WriteToBuffer (s : CyclicBuffer α) (inPtr : List α) (writeLength : Nat) :
    Except (Fault α) (Bool × CyclicBuffer α) :=
  if writeLength > WriteSpace s then
    .ok (false, s)
  else do
    let buf ←
      if sizeAdd s.mWritePtr writeLength ≤ s.mBufferSize then
        memcpy s.mBuffer s.mWritePtr inPtr 0 writeLength
      else do
        let len := sizeSub s.mBufferSize s.mWritePtr
        let first ← memcpy s.mBuffer s.mWritePtr inPtr 0 len
        memcpy first 0 inPtr len (sizeSub writeLength len)
    let s' ← UpdateWritePtr { s with mBuffer := buf } (toSignedLong writeLength)
    pure (true, s')

/-- The member function `ReadFromBuffer(outPtr, readLength)`. `outPtr` is the
caller's destination block as it is before the call. The result is the
returned `bool`, the destination block after the call and the new state. -/
def ReadFromBuffer (s : CyclicBuffer α) (outPtr : List α) (readLength : Nat) :
    Except (Fault α) (Bool × List α × CyclicBuffer α) :=
  if readLength > ReadSpace s then
    .ok (false, outPtr, s)
  else do
    let out ←
      if sizeAdd s.mReadPtr readLength ≤ s.mBufferSize then
        memcpy outPtr 0 s.mBuffer s.mReadPtr readLength
      else do
        let len := sizeSub s.mBufferSize s.mReadPtr
        let first ← memcpy outPtr 0 s.mBuffer s.mReadPtr len
        memcpy first len s.mBuffer 0 (sizeSub readLength len)
    let s' ← UpdateReadPtr s (toSignedLong readLength)
    pure (true, out, s')

/-- The member function `PushBack(data)`. -/
def PushBack (s : CyclicBuffer α) (data : α) : Except (Fault α) (CyclicBuffer α) :=
  if WriteSpace s = 0 then
    .error (.thrown .noSpace s)
  else if s.mWritePtr < s.mBuffer.length then
    UpdateWritePtr { s with mBuffer := s.mBuffer.set s.mWritePtr data } 1
  else
    .error .undefinedBehaviour

/-- The member function `PopFront()`. The result is the returned element and
the new state. -/
def PopFront (s : CyclicBuffer α) : Except (Fault α) (α × CyclicBuffer α) :=
  if WriteSpace s = 0 then
    .error (.thrown .noData s)
  else
    match s.mBuffer[s.mReadPtr]? with
    | none => .error .undefinedBehaviour
    | some tmpEle => do
      let s' ← UpdateReadPtr s 1
      pure (tmpEle, s')

/-- The indexing operator `operator[](pos)`. The returned reference is given
as the offset of the slot in the block; the state is returned as it is, the
operator being `const`. -/
def index (s : CyclicBuffer α) (pos : Nat) : Except (Fault α) (Nat × CyclicBuffer α) :=
  if pos > ReadSpace s then
    .error (.thrown .outOfDataLength s)
  else if s.mBufferSize = 0 then
    .error .undefinedBehaviour
  else if sizeAdd s.mReadPtr pos % s.mBufferSize < s.mBuffer.length then
    .ok (sizeAdd s.mReadPtr pos % s.mBufferSize, s)
  else
    .error .undefinedBehaviour

/-- The member function `Clear()`. -/
def Clear (s : CyclicBuffer α) : CyclicBuffer α :=
  { s with mReadPtr := 0, mWritePtr := 0 }

/-- What the allocator does with a `realloc` request. -/
inductive ReallocAnswer (α : Type) where
  /-- It returns `NULL` and leaves the old block as it is. -/
  | null
  /-- It returns a block of the requested size; `fresh i` is the indeterminate
  value of slot `i` where the old block has no slot. -/
  | block (fresh : Nat → α)
  /-- On a request of zero bytes it releases the old block and returns `NULL`,
  which the language leaves to the implementation and glibc does. `realloc`
  does not do this on a request of at least one byte, where this answer stands
  for `null`. -/
  | released

/-- The library function `realloc(block, sizeof(T) * newLength)` on element
blocks, for an element type of `sizeofT` bytes; the byte count is the `size_t`
product. The result is the returned pointer, given as the block it points to
(`none` for `NULL`), and what the old pointer points to after the call. A
block that has been released is given as the empty block: no slot of it can be
accessed any more. A returned block has `blockLength sizeofT newLength`
elements and holds the old elements at the offsets that both blocks have. -/
def realloc (sizeofT : Nat) (block : List α) (newLength : Nat) (answer : ReallocAnswer α) :
    Option (List α) × List α :=
  match answer with
  | .null => (none, block)
  | .block fresh =>
    (some ((List.range (blockLength sizeofT newLength)).map fun i =>
      (block[i]?).getD (fresh i)), [])
  | .released => if sizeMul sizeofT newLength = 0 then (none, []) else (none, block)

/-- The member function `Resize(newLength)` for an element type of `sizeofT`
bytes; `answer` is the behaviour of the allocator, see `realloc`. The result
is the returned `bool` and the new state; when `realloc` returns `NULL` the
member `mBuffer` keeps the old pointer, whatever has become of its block. -/
def Resize (sizeofT : Nat) (s : CyclicBuffer α) (newLength : Nat) (answer : ReallocAnswer α) :
    Except (Fault α) (Bool × CyclicBuffer α) :=
  match realloc sizeofT s.mBuffer newLength answer with
  | (none, old) => .ok (false, { s with mBuffer := old })
  | (some block, _) => .ok (true, { s with mBuffer := block, mBufferSize := newLength })

/-! ## Call sequences -/

/-- The calls `PushBack(x1)`, .., `PushBack(xk)`, one after the other, for the
elements of a list; the sequence stops at the first call that does not
return. -/
def pushBackAll (s : CyclicBuffer α) : List α → Except (Fault α) (CyclicBuffer α)
  | [] => .ok s
  | x :: xs => do
    let s' ← PushBack s x
    pushBackAll s' xs

/-- The result of `k` calls of `PopFront()`, one after the other: the returned
elements in the order of the calls, and the final state; the sequence stops at
the first call that does not return. -/
def popFrontTimes (s : CyclicBuffer α) : Nat → Except (Fault α) (List α × CyclicBuffer α)
  | 0 => .ok ([], s)
  | k + 1 => do
    let r ← PopFront s
    let rest ← popFrontTimes r.2 k
    pure (r.1 :: rest.1, rest.2)

/-! ## Well-formed buffers and reachable states -/

/-- A buffer object with capacity at least 1 whose block has `mBufferSize`
elements (at most `PTRDIFF_MAX`, as for every allocated block) and whose
cursors are in `[0, mBufferSize)`. -/
def WellFormed (s : CyclicBuffer α) : Prop :=
  1 ≤ s.mBufferSize ∧ s.mBufferSize ≤ PTRDIFF_MAX ∧ s.mBuffer.length = s.mBufferSize ∧
    s.mReadPtr < s.mBufferSize ∧ s.mWritePtr < s.mBufferSize

instance (s : CyclicBuffer α) : Decidable (WellFormed s) := by
  unfold WellFormed; infer_instance

/-- Both cursors are in `[0, capacity)`. -/
def CursorsInRange (s : CyclicBuffer α) : Prop :=
  s.mReadPtr < s.mBufferSize ∧ s.mWritePtr < s.mBufferSize

instance (s : CyclicBuffer α) : Decidable (CursorsInRange s) := by
  unfold CursorsInRange; infer_instance

/-- States reached from a newly constructed buffer of capacity `N`, of any
element size, by calls of `WriteToBuffer`, `ReadFromBuffer`, `PushBack`,
`PopFront` and `Clear`, whether they succeed, return `false` or throw. -/
inductive Reachable [Zero α] (N : Nat) : CyclicBuffer α → Prop where
  | construct (sizeofT : Nat) {s : CyclicBuffer α} :
      construct sizeofT N true = .ok s → Reachable N s
  | writeToBuffer {s s' : CyclicBuffer α} (inPtr : List α) (n : Nat) (b : Bool) :
      Reachable N s → WriteToBuffer s inPtr n = .ok (b, s') → Reachable N s'
  | readFromBuffer {s s' : CyclicBuffer α} (outPtr out : List α) (n : Nat) (b : Bool) :
      Reachable N s → ReadFromBuffer s outPtr n = .ok (b, out, s') → Reachable N s'
  | pushBack {s s' : CyclicBuffer α} (data : α) :
      Reachable N s → PushBack s data = .ok s' → Reachable N s'
  | pushBackThrown {s s' : CyclicBuffer α} (data : α) (e : Thrown) :
      Reachable N s → PushBack s data = .error (.thrown e s') → Reachable N s'
  | popFront {s s' : CyclicBuffer α} (x : α) :
      Reachable N s → PopFront s = .ok (x, s') → Reachable N s'
  | popFrontThrown {s s' : CyclicBuffer α} (e : Thrown) :
      Reachable N s → PopFront s = .error (.thrown e s') → Reachable N s'
  | clear {s : CyclicBuffer α} :
      Reachable N s → Reachable N (Clear s)

/-! ## Reference description

The next function is written from the wording of the specification, not from
the source; `WriteToBuffer` is compared with it. -/

/-- The element-by-element modular write of the specification:
`storage[(w + i) mod N] = source[i]` for `i = 0, .., n - 1`, one after the
other. -/
def modularWrite (storage : List α) (w N : Nat) (source : List α) : Nat → List α
  | 0 => storage
  | n + 1 =>
    match source[n]? with
    | some x => (modularWrite storage w N source n).set ((w + n) % N) x
    | none => modularWrite storage w N source n

/-! ## Machine arithmetic and block copies -/

theorem sizeAdd_eq {a b : Nat} (h : a + b < SIZE_MOD) : sizeAdd a b = a + b := by
  unfold sizeAdd; exact Nat.mod_eq_of_lt h

theorem sizeSub_eq {a b : Nat} (hb : b ≤ a) (ha : a < SIZE_MOD) : sizeSub a b = a - b := by
  unfold sizeSub SIZE_MOD at *; omega

theorem toSizeT_toSignedLong {n : Nat} (h : n < SIZE_MOD) : toSizeT (toSignedLong n) = n := by
  unfold toSizeT toSignedLong SIZE_MOD PTRDIFF_MAX at *
  split <;> omega

theorem toSizeT_one : toSizeT 1 = 1 := by decide

theorem ReadSpace_eq (s : CyclicBuffer α) (hN : s.mBufferSize < SIZE_MOD)
    (hr : s.mReadPtr < s.mBufferSize) (hw : s.mWritePtr < s.mBufferSize) :
    ReadSpace s =
      if s.mReadPtr < s.mWritePtr then s.mWritePtr - s.mReadPtr - 1
      else if s.mWritePtr < s.mReadPtr then s.mBufferSize + s.mWritePtr - s.mReadPtr - 1
      else 0 := by
  unfold ReadSpace sizeSub sizeAdd SIZE_MOD at *
  split_ifs <;> omega

theorem WriteSpace_eq (s : CyclicBuffer α) (hN : s.mBufferSize < SIZE_MOD)
    (hr : s.mReadPtr < s.mBufferSize) (hw : s.mWritePtr < s.mBufferSize) :
    WriteSpace s =
      if s.mReadPtr ≤ s.mWritePtr then s.mBufferSize + s.mReadPtr - s.mWritePtr - 1
      else s.mReadPtr - s.mWritePtr - 1 := by
  unfold WriteSpace sizeSub sizeAdd SIZE_MOD at *
  split_ifs <;> omega

theorem memcpy_ok {dst src : List α} {dstOff srcOff n : Nat}
    (hd : dstOff + n ≤ dst.length) (hs : srcOff + n ≤ src.length) :
    memcpy dst dstOff src srcOff n =
      .ok (blockCopy dst dstOff src srcOff n) := by
  unfold memcpy; rw [if_pos ⟨hd, hs⟩]

theorem blockCopy_length {dst src : List α} {dstOff srcOff n : Nat}
    (hd : dstOff + n ≤ dst.length) (hs : srcOff + n ≤ src.length) :
    (blockCopy dst dstOff src srcOff n).length = dst.length := by
  unfold blockCopy
  simp only [List.length_append, List.length_take, List.length_drop]
  omega

theorem blockCopy_getElem? {dst src : List α} {dstOff srcOff n : Nat}
    (hd : dstOff + n ≤ dst.length) (hs : srcOff + n ≤ src.length) (j : Nat) :
    (blockCopy dst dstOff src srcOff n)[j]?
      = if dstOff ≤ j ∧ j < dstOff + n then src[srcOff + (j - dstOff)]? else dst[j]? := by
  unfold blockCopy
  by_cases h1 : j < dstOff
  · rw [if_neg (by omega), List.append_assoc, List.getElem?_append_left (by simp; omega)]
    simp [List.getElem?_take, h1]
  · by_cases h2 : j < dstOff + n
    · rw [if_pos (by omega), List.append_assoc, List.getElem?_append_right (by simp; omega),
        List.getElem?_append_left (by simp; omega)]
      simp only [List.getElem?_take, List.getElem?_drop, List.length_take]
      have e1 : min dstOff dst.length = dstOff := by omega
      rw [e1, if_pos (by omega)]
    · rw [if_neg (by omega), List.getElem?_append_right (by simp; omega)]
      simp only [List.getElem?_drop, List.length_append, List.length_take, List.length_drop]
      congr 1
      omega

/-! ## Cursor updates and bulk transfers -/

theorem UpdateWritePtr_size (N r w : Nat) (buf : List α) (n : Nat) (h0 : 1 ≤ N)
    (hN : N ≤ PTRDIFF_MAX) (hw : w < N) (hn : n < N) :
    UpdateWritePtr (⟨N, r, w, buf⟩ : CyclicBuffer α) (toSignedLong n) =
      .ok ⟨N, r, (w + n) % N, buf⟩ := by
  unfold UpdateWritePtr
  unfold PTRDIFF_MAX at hN
  simp only []
  rw [if_neg (by omega), toSizeT_toSignedLong (by unfold SIZE_MOD; omega),
    sizeAdd_eq (by unfold SIZE_MOD; omega)]

theorem UpdateReadPtr_size (N r w : Nat) (buf : List α) (n : Nat) (h0 : 1 ≤ N)
    (hN : N ≤ PTRDIFF_MAX) (hr : r < N) (hn : n < N) :
    UpdateReadPtr (⟨N, r, w, buf⟩ : CyclicBuffer α) (toSignedLong n) =
      .ok ⟨N, (r + n) % N, w, buf⟩ := by
  unfold UpdateReadPtr
  unfold PTRDIFF_MAX at hN
  simp only []
  rw [if_neg (by omega), toSizeT_toSignedLong (by unfold SIZE_MOD; omega),
    sizeAdd_eq (by unfold SIZE_MOD; omega)]

theorem WriteSpace_lt (s : CyclicBuffer α) (hwf : WellFormed s) :
    WriteSpace s < s.mBufferSize := by
  obtain ⟨h0, hN, _, hr, hw⟩ := hwf
  rw [WriteSpace_eq s (by unfold SIZE_MOD; unfold PTRDIFF_MAX at hN; omega) hr hw]
  split_ifs <;> omega

theorem ReadSpace_lt (s : CyclicBuffer α) (hwf : WellFormed s) :
    ReadSpace s < s.mBufferSize := by
  obtain ⟨h0, hN, _, hr, hw⟩ := hwf
  rw [ReadSpace_eq s (by unfold SIZE_MOD; unfold PTRDIFF_MAX at hN; omega) hr hw]
  split_ifs <;> omega

/-- Contents of the block after `n` elements of `inPtr` were stored from slot
`w` on, going round the end of a block of `N` slots. -/
theorem WriteToBuffer_ok (s : CyclicBuffer α) (inPtr : List α) (n : Nat)
    (hwf : WellFormed s) (hn : n ≤ WriteSpace s) (hsrc : n ≤ inPtr.length) :
    ∃ buf : List α,
      WriteToBuffer s inPtr n =
        .ok (true, { s with mBuffer := buf,
                            mWritePtr := (s.mWritePtr + n) % s.mBufferSize }) ∧
      buf.length = s.mBufferSize ∧
      ∀ j, j < s.mBufferSize → buf[j]? =
        if s.mWritePtr ≤ j ∧ j < s.mWritePtr + n then inPtr[j - s.mWritePtr]?
        else if j + s.mBufferSize < s.mWritePtr + n then
          inPtr[j + s.mBufferSize - s.mWritePtr]?
        else s.mBuffer[j]? := by
  have hlt := WriteSpace_lt s hwf
  obtain ⟨h0, hN, hlen, hr, hw⟩ := hwf
  have hN2 : s.mBufferSize ≤ 9223372036854775807 := hN
  unfold WriteToBuffer
  rw [if_neg (by omega), sizeAdd_eq (by unfold SIZE_MOD; omega)]
  by_cases hb : s.mWritePtr + n ≤ s.mBufferSize
  · rw [if_pos hb, memcpy_ok (by omega) (by omega)]
    refine ⟨blockCopy s.mBuffer s.mWritePtr inPtr 0 n, ?_, ?_, ?_⟩
    · simp only [bind, Except.bind, pure, Except.pure]
      rw [UpdateWritePtr_size _ _ _ _ n h0 hN hw (by omega)]
    · rw [blockCopy_length (by omega) (by omega), hlen]
    · intro j _
      rw [blockCopy_getElem? (by omega) (by omega)]
      by_cases hj : s.mWritePtr ≤ j ∧ j < s.mWritePtr + n
      · rw [if_pos hj, if_pos hj, Nat.zero_add]
      · rw [if_neg hj, if_neg hj, if_neg (by omega)]
  · have hlenEq : sizeSub s.mBufferSize s.mWritePtr = s.mBufferSize - s.mWritePtr :=
      sizeSub_eq (by omega) (by unfold SIZE_MOD; omega)
    have hrest : sizeSub n (s.mBufferSize - s.mWritePtr) = n - (s.mBufferSize - s.mWritePtr) :=
      sizeSub_eq (by omega) (by unfold SIZE_MOD; omega)
    rw [if_neg hb]
    simp only [bind, Except.bind, pure, Except.pure, hlenEq, hrest]
    rw [memcpy_ok (by omega) (by omega)]
    simp only []
    have hl1 := @blockCopy_length α s.mBuffer inPtr s.mWritePtr 0
      (s.mBufferSize - s.mWritePtr) (by omega) (by omega)
    rw [memcpy_ok (by omega) (by omega)]
    simp only []
    refine ⟨blockCopy (blockCopy s.mBuffer s.mWritePtr inPtr 0 (s.mBufferSize - s.mWritePtr)) 0
      inPtr (s.mBufferSize - s.mWritePtr) (n - (s.mBufferSize - s.mWritePtr)), ?_, ?_, ?_⟩
    · rw [UpdateWritePtr_size _ _ _ _ n h0 hN hw (by omega)]
    · rw [blockCopy_length (by omega) (by omega), hl1, hlen]
    · intro j hjN
      rw [blockCopy_getElem? (by omega) (by omega), blockCopy_getElem? (by omega) (by omega)]
      by_cases hj : s.mWritePtr ≤ j ∧ j < s.mWritePtr + n
      · rw [if_neg (by omega), if_pos (by omega), if_pos hj, Nat.zero_add]
      · rw [if_neg hj]
        by_cases hj2 : j + s.mBufferSize < s.mWritePtr + n
        · rw [if_pos (by omega), if_pos hj2]
          congr 1
          omega
        · rw [if_neg (by omega), if_neg (by omega), if_neg hj2]

theorem add_mod_wrap {a i N : Nat} (h : a + i < 2 * N) :
    (a + i) % N = if a + i < N then a + i else a + i - N := by
  split_ifs with hlt
  · exact Nat.mod_eq_of_lt hlt
  · rw [Nat.mod_eq_sub_mod (by omega), Nat.mod_eq_of_lt (by omega)]

/-- Destination block after `n` elements were fetched from slot `r` on, going
round the end of a block of `N` slots. -/
theorem ReadFromBuffer_ok (s : CyclicBuffer α) (outPtr : List α) (n : Nat)
    (hwf : WellFormed s) (hn : n ≤ ReadSpace s) (hdst : n ≤ outPtr.length) :
    ∃ out : List α,
      ReadFromBuffer s outPtr n =
        .ok (true, out, { s with mReadPtr := (s.mReadPtr + n) % s.mBufferSize }) ∧
      out.length = outPtr.length ∧
      ∀ i, out[i]? =
        if i < n then s.mBuffer[(s.mReadPtr + i) % s.mBufferSize]? else outPtr[i]? := by
  have hlt := ReadSpace_lt s hwf
  obtain ⟨h0, hN, hlen, hr, hw⟩ := hwf
  have hN2 : s.mBufferSize ≤ 9223372036854775807 := hN
  unfold ReadFromBuffer
  rw [if_neg (by omega), sizeAdd_eq (by unfold SIZE_MOD; omega)]
  by_cases hb : s.mReadPtr + n ≤ s.mBufferSize
  · rw [if_pos hb, memcpy_ok (by omega) (by omega)]
    refine ⟨blockCopy outPtr 0 s.mBuffer s.mReadPtr n, ?_, ?_, ?_⟩
    · simp only [bind, Except.bind, pure, Except.pure]
      rw [UpdateReadPtr_size _ _ _ _ n h0 hN hr (by omega)]
    · rw [blockCopy_length (by omega) (by omega)]
    · intro i
      rw [blockCopy_getElem? (by omega) (by omega)]
      by_cases hi : i < n
      · rw [if_pos (by omega), if_pos hi, Nat.mod_eq_of_lt (by omega), Nat.sub_zero]
      · rw [if_neg (by omega), if_neg hi]
  · have hlenEq : sizeSub s.mBufferSize s.mReadPtr = s.mBufferSize - s.mReadPtr :=
      sizeSub_eq (by omega) (by unfold SIZE_MOD; omega)
    have hrest : sizeSub n (s.mBufferSize - s.mReadPtr) = n - (s.mBufferSize - s.mReadPtr) :=
      sizeSub_eq (by omega) (by unfold SIZE_MOD; omega)
    rw [if_neg hb]
    simp only [bind, Except.bind, pure, Except.pure, hlenEq, hrest]
    rw [memcpy_ok (by omega) (by omega)]
    simp only []
    have hl1 := @blockCopy_length α outPtr s.mBuffer 0 s.mReadPtr
      (s.mBufferSize - s.mReadPtr) (by omega) (by omega)
    rw [memcpy_ok (by omega) (by omega)]
    simp only []
    refine ⟨blockCopy (blockCopy outPtr 0 s.mBuffer s.mReadPtr (s.mBufferSize - s.mReadPtr))
      (s.mBufferSize - s.mReadPtr) s.mBuffer 0 (n - (s.mBufferSize - s.mReadPtr)), ?_, ?_, ?_⟩
    · rw [UpdateReadPtr_size _ _ _ _ n h0 hN hr (by omega)]
    · rw [blockCopy_length (by omega) (by omega), hl1]
    · intro i
      rw [blockCopy_getElem? (by omega) (by omega), blockCopy_getElem? (by omega) (by omega)]
      by_cases hi : i < n
      · rw [if_pos hi, add_mod_wrap (by omega)]
        by_cases hi2 : s.mReadPtr + i < s.mBufferSize
        · rw [if_neg (by omega), if_pos (by omega), if_pos hi2, Nat.sub_zero]
        · rw [if_pos (by omega), if_neg hi2]
          congr 1
          omega
      · rw [if_neg (by omega), if_neg (by omega), if_neg hi]

/-! ## What every call preserves -/

theorem bind_eq_ok {ε β γ : Type} {x : Except ε β} {f : β → Except ε γ} {c : γ}
    (h : x >>= f = .ok c) : ∃ a, x = .ok a ∧ f a = .ok c := by
  cases x with
  | error e => cases h
  | ok a => exact ⟨a, rfl, h⟩

theorem UpdateWritePtr_frame {s s' : CyclicBuffer α} {len : Int}
    (h : UpdateWritePtr s len = .ok s') :
    s'.mBufferSize = s.mBufferSize ∧ s'.mReadPtr = s.mReadPtr ∧
      s'.mWritePtr < s.mBufferSize ∧ s'.mBuffer = s.mBuffer := by
  unfold UpdateWritePtr at h
  split_ifs at h with h0
  cases h
  exact ⟨rfl, rfl, Nat.mod_lt _ (Nat.pos_of_ne_zero h0), rfl⟩

theorem UpdateReadPtr_frame {s s' : CyclicBuffer α} {len : Int}
    (h : UpdateReadPtr s len = .ok s') :
    s'.mBufferSize = s.mBufferSize ∧ s'.mReadPtr < s.mBufferSize ∧
      s'.mWritePtr = s.mWritePtr ∧ s'.mBuffer = s.mBuffer := by
  unfold UpdateReadPtr at h
  split_ifs at h with h0
  cases h
  exact ⟨rfl, Nat.mod_lt _ (Nat.pos_of_ne_zero h0), rfl, rfl⟩

theorem WriteToBuffer_cursors {s s' : CyclicBuffer α} {inPtr : List α} {n : Nat} {b : Bool}
    (h : WriteToBuffer s inPtr n = .ok (b, s')) :
    s'.mBufferSize = s.mBufferSize ∧ s'.mReadPtr = s.mReadPtr ∧
      (s'.mWritePtr = s.mWritePtr ∨ s'.mWritePtr < s.mBufferSize) := by
  unfold WriteToBuffer at h
  by_cases hn : n > WriteSpace s
  · rw [if_pos hn] at h
    cases h
    exact ⟨rfl, rfl, Or.inl rfl⟩
  · rw [if_neg hn] at h
    dsimp only at h
    split_ifs at h
    · obtain ⟨buf, _, h⟩ := bind_eq_ok h
      obtain ⟨v, hv, h⟩ := bind_eq_ok h
      cases h
      obtain ⟨h1, h2, h3, _⟩ := UpdateWritePtr_frame hv
      exact ⟨h1, h2, Or.inr h3⟩
    · obtain ⟨first, _, h⟩ := bind_eq_ok h
      obtain ⟨buf, _, h⟩ := bind_eq_ok h
      obtain ⟨v, hv, h⟩ := bind_eq_ok h
      cases h
      obtain ⟨h1, h2, h3, _⟩ := UpdateWritePtr_frame hv
      exact ⟨h1, h2, Or.inr h3⟩

theorem ReadFromBuffer_cursors {s s' : CyclicBuffer α} {outPtr out : List α} {n : Nat}
    {b : Bool} (h : ReadFromBuffer s outPtr n = .ok (b, out, s')) :
    s'.mBufferSize = s.mBufferSize ∧ s'.mWritePtr = s.mWritePtr ∧
      (s'.mReadPtr = s.mReadPtr ∨ s'.mReadPtr < s.mBufferSize) := by
  unfold ReadFromBuffer at h
  by_cases hn : n > ReadSpace s
  · rw [if_pos hn] at h
    cases h
    exact ⟨rfl, rfl, Or.inl rfl⟩
  · rw [if_neg hn] at h
    dsimp only at h
    split_ifs at h
    · obtain ⟨o, _, h⟩ := bind_eq_ok h
      obtain ⟨v, hv, h⟩ := bind_eq_ok h
      cases h
      obtain ⟨h1, h2, h3, _⟩ := UpdateReadPtr_frame hv
      exact ⟨h1, h3, Or.inr h2⟩
    · obtain ⟨first, _, h⟩ := bind_eq_ok h
      obtain ⟨o, _, h⟩ := bind_eq_ok h
      obtain ⟨v, hv, h⟩ := bind_eq_ok h
      cases h
      obtain ⟨h1, h2, h3, _⟩ := UpdateReadPtr_frame hv
      exact ⟨h1, h3, Or.inr h2⟩

theorem PushBack_thrown {s s' : CyclicBuffer α} {data : α} {e : Thrown}
    (h : PushBack s data = .error (.thrown e s')) : s' = s := by
  unfold PushBack at h
  split_ifs at h
  · cases h; rfl
  · unfold UpdateWritePtr at h
    split_ifs at h
    cases h
  · cases h

theorem PopFront_thrown {s s' : CyclicBuffer α} {e : Thrown}
    (h : PopFront s = .error (.thrown e s')) : s' = s := by
  unfold PopFront at h
  split_ifs at h
  · cases h; rfl
  · split at h
    · cases h
    · unfold UpdateReadPtr at h
      split_ifs at h
      · cases h
      · cases h

theorem PushBack_cursors {s s' : CyclicBuffer α} {data : α}
    (h : PushBack s data = .ok s') :
    s'.mBufferSize = s.mBufferSize ∧ s'.mReadPtr = s.mReadPtr ∧
      s'.mWritePtr < s.mBufferSize := by
  unfold PushBack at h
  split_ifs at h
  obtain ⟨h1, h2, h3, _⟩ := UpdateWritePtr_frame h
  exact ⟨h1, h2, h3⟩

theorem PopFront_cursors {s s' : CyclicBuffer α} {x : α}
    (h : PopFront s = .ok (x, s')) :
    s'.mBufferSize = s.mBufferSize ∧ s'.mWritePtr = s.mWritePtr ∧
      s'.mReadPtr < s.mBufferSize := by
  unfold PopFront at h
  split_ifs at h
  split at h
  · cases h
  · obtain ⟨v, hv, h⟩ := bind_eq_ok h
    cases h
    obtain ⟨h1, h2, h3, _⟩ := UpdateReadPtr_frame hv
    exact ⟨h1, h3, h2⟩

theorem space_sum (s : CyclicBuffer α) (hN : s.mBufferSize < SIZE_MOD)
    (hr : s.mReadPtr < s.mBufferSize) (hw : s.mWritePtr < s.mBufferSize) :
    ReadSpace s + WriteSpace s =
      if s.mReadPtr = s.mWritePtr then s.mBufferSize - 1 else s.mBufferSize - 2 := by
  rw [ReadSpace_eq s hN hr hw, WriteSpace_eq s hN hr hw]
  split_ifs <;> omega

theorem Reachable_cursors [Zero α] {N : Nat} (hN3 : 3 ≤ N) {s : CyclicBuffer α}
    (h : Reachable N s) :
    s.mBufferSize = N ∧ s.mReadPtr < N ∧ s.mWritePtr < N := by
  induction h with
  | construct sizeofT hc =>
    unfold construct at hc
    simp only [if_true] at hc
    cases hc
    exact ⟨rfl, by show 0 < N; omega, by show 2 < N; omega⟩
  | writeToBuffer inPtr n b _ hstep ih =>
    obtain ⟨h1, h2, h3⟩ := WriteToBuffer_cursors hstep
    obtain ⟨i1, i2, i3⟩ := ih
    refine ⟨by omega, by omega, ?_⟩
    rcases h3 with h3 | h3 <;> omega
  | readFromBuffer outPtr out n b _ hstep ih =>
    obtain ⟨h1, h2, h3⟩ := ReadFromBuffer_cursors hstep
    obtain ⟨i1, i2, i3⟩ := ih
    refine ⟨by omega, ?_, by omega⟩
    rcases h3 with h3 | h3 <;> omega
  | pushBack data _ hstep ih =>
    obtain ⟨h1, h2, h3⟩ := PushBack_cursors hstep
    obtain ⟨i1, i2, i3⟩ := ih
    exact ⟨by omega, by omega, by omega⟩
  | pushBackThrown data e _ hstep ih =>
    rw [PushBack_thrown hstep]; exact ih
  | popFrontThrown e _ hstep ih =>
    rw [PopFront_thrown hstep]; exact ih
  | popFront x _ hstep ih =>
    obtain ⟨h1, h2, h3⟩ := PopFront_cursors hstep
    obtain ⟨i1, i2, i3⟩ := ih
    exact ⟨by omega, by omega, by omega⟩
  | clear _ ih =>
    obtain ⟨i1, i2, i3⟩ := ih
    exact ⟨i1, by show 0 < N; omega, by show 0 < N; omega⟩

/-! ## C1: the sum of the two space reports -/

/-- C1 (counterexample): a buffer newly constructed with capacity 8 has
`ReadSpace() = 1` and `WriteSpace() = 5`, and after `Clear()` and
`PushBack(7)` it has `ReadSpace() = 0` and `WriteSpace() = 6`; both sums are
6, not `capacity - 1 = 7`. -/
theorem space_sum_counterexample :
    Reachable 8 (⟨8, 0, 2, [0, 0, 0, 0, 0, 0, 0, 0]⟩ : CyclicBuffer Nat) ∧
    ReadSpace (⟨8, 0, 2, [0, 0, 0, 0, 0, 0, 0, 0]⟩ : CyclicBuffer Nat) = 1 ∧
    WriteSpace (⟨8, 0, 2, [0, 0, 0, 0, 0, 0, 0, 0]⟩ : CyclicBuffer Nat) = 5 ∧
    Reachable 8 (⟨8, 0, 1, [7, 0, 0, 0, 0, 0, 0, 0]⟩ : CyclicBuffer Nat) ∧
    ReadSpace (⟨8, 0, 1, [7, 0, 0, 0, 0, 0, 0, 0]⟩ : CyclicBuffer Nat) = 0 ∧
    WriteSpace (⟨8, 0, 1, [7, 0, 0, 0, 0, 0, 0, 0]⟩ : CyclicBuffer Nat) = 6 ∧
    1 + 5 ≠ 8 - 1 ∧ 0 + 6 ≠ 8 - 1 :=
  ⟨.construct 8 rfl, by decide, by decide, .pushBack 7 (.clear (.construct 8 rfl)) rfl,
    by decide, by decide, by decide, by decide⟩

/-- C1 (amended): for every capacity `N` from 3 on, every state reached from a
newly constructed buffer by calls of `WriteToBuffer`, `ReadFromBuffer`,
`PushBack`, `PopFront` and `Clear` has capacity `N` and both cursors in
`[0, N)`, and `ReadSpace() + WriteSpace()` is `N - 1` when the cursors are
equal and `N - 2` when they differ. -/
theorem space_sum_reachable [Zero α] (N : Nat) (hN3 : 3 ≤ N) (hN : N < SIZE_MOD)
    (s : CyclicBuffer α) (h : Reachable N s) :
    s.mBufferSize = N ∧ s.mReadPtr < N ∧ s.mWritePtr < N ∧
      ReadSpace s + WriteSpace s = if s.mReadPtr = s.mWritePtr then N - 1 else N - 2 := by
  obtain ⟨h1, h2, h3⟩ := Reachable_cursors hN3 h
  refine ⟨h1, h2, h3, ?_⟩
  subst h1
  exact space_sum s hN h2 h3

/-- C1 (amended), at capacity 8 after `Clear()` and `PushBack(7)`. -/
theorem space_sum_reachable_witness :
    (3 ≤ 8 ∧ 8 < SIZE_MOD ∧
      Reachable 8 (⟨8, 0, 1, [7, 0, 0, 0, 0, 0, 0, 0]⟩ : CyclicBuffer Nat)) ∧
    ReadSpace (⟨8, 0, 1, [7, 0, 0, 0, 0, 0, 0, 0]⟩ : CyclicBuffer Nat) +
      WriteSpace (⟨8, 0, 1, [7, 0, 0, 0, 0, 0, 0, 0]⟩ : CyclicBuffer Nat) = 8 - 2 :=
  have hreach : Reachable 8 (⟨8, 0, 1, [7, 0, 0, 0, 0, 0, 0, 0]⟩ : CyclicBuffer Nat) :=
    .pushBack 7 (.clear (.construct 8 rfl)) rfl
  ⟨⟨by decide, by simp [SIZE_MOD], hreach⟩,
    (space_sum_reachable 8 (by decide) (by simp [SIZE_MOD]) ⟨8, 0, 1, [7, 0, 0, 0, 0, 0, 0, 0]⟩
      hreach).2.2.2⟩

/-! ## C2: a bulk write followed by a bulk read -/

theorem ringSlot_written {buf old inPtr : List α} {w n N : Nat} (hw : w < N) (hn : n < N)
    (hbuf : ∀ j, j < N → buf[j]? =
      if w ≤ j ∧ j < w + n then inPtr[j - w]?
      else if j + N < w + n then inPtr[j + N - w]?
      else old[j]?) :
    (∀ i, i < n → buf[(w + i) % N]? = inPtr[i]?) ∧
    (∀ j, j < N → (∀ i, i < n → j ≠ (w + i) % N) → buf[j]? = old[j]?) := by
  constructor
  · intro i hi
    rw [add_mod_wrap (by omega)]
    by_cases hlt : w + i < N
    · rw [if_pos hlt, hbuf _ hlt, if_pos (by omega)]
      congr 1
      omega
    · rw [if_neg hlt, hbuf _ (by omega), if_neg (by omega), if_pos (by omega)]
      congr 1
      omega
  · intro j hj hne
    rw [hbuf j hj]
    by_cases h1 : w ≤ j ∧ j < w + n
    · exfalso
      apply hne (j - w) (by omega)
      rw [add_mod_wrap (by omega), if_pos (by omega)]
      omega
    · rw [if_neg h1]
      by_cases h2 : j + N < w + n
      · exfalso
        apply hne (j + N - w) (by omega)
        rw [add_mod_wrap (by omega), if_neg (by omega)]
        omega
      · rw [if_neg h2]

/-- C2 (counterexample): with capacity 8 and both cursors at 0, `ReadSpace()`
is 0 and `WriteSpace()` is 7; `WriteToBuffer([1,2,3], 3)` returns true, and
the `ReadFromBuffer(out, 3)` that follows returns false and delivers nothing.
With the cursors at 0 and 1, `ReadSpace()` is 0 as well, and the read after
the same write returns true but delivers `[9,1,2]`. -/
theorem write_then_read_counterexample :
    WellFormed (⟨8, 0, 0, [0, 0, 0, 0, 0, 0, 0, 0]⟩ : CyclicBuffer Nat) ∧
    ReadSpace (⟨8, 0, 0, [0, 0, 0, 0, 0, 0, 0, 0]⟩ : CyclicBuffer Nat) = 0 ∧
    3 ≤ WriteSpace (⟨8, 0, 0, [0, 0, 0, 0, 0, 0, 0, 0]⟩ : CyclicBuffer Nat) ∧
    WriteToBuffer (⟨8, 0, 0, [0, 0, 0, 0, 0, 0, 0, 0]⟩ : CyclicBuffer Nat) [1, 2, 3] 3 =
      .ok (true, ⟨8, 0, 3, [1, 2, 3, 0, 0, 0, 0, 0]⟩) ∧
    ReadFromBuffer (⟨8, 0, 3, [1, 2, 3, 0, 0, 0, 0, 0]⟩ : CyclicBuffer Nat) [0, 0, 0] 3 =
      .ok (false, [0, 0, 0], ⟨8, 0, 3, [1, 2, 3, 0, 0, 0, 0, 0]⟩) ∧
    WellFormed (⟨8, 0, 1, [9, 0, 0, 0, 0, 0, 0, 0]⟩ : CyclicBuffer Nat) ∧
    ReadSpace (⟨8, 0, 1, [9, 0, 0, 0, 0, 0, 0, 0]⟩ : CyclicBuffer Nat) = 0 ∧
    3 ≤ WriteSpace (⟨8, 0, 1, [9, 0, 0, 0, 0, 0, 0, 0]⟩ : CyclicBuffer Nat) ∧
    WriteToBuffer (⟨8, 0, 1, [9, 0, 0, 0, 0, 0, 0, 0]⟩ : CyclicBuffer Nat) [1, 2, 3] 3 =
      .ok (true, ⟨8, 0, 4, [9, 1, 2, 3, 0, 0, 0, 0]⟩) ∧
    ReadFromBuffer (⟨8, 0, 4, [9, 1, 2, 3, 0, 0, 0, 0]⟩ : CyclicBuffer Nat) [0, 0, 0] 3 =
      .ok (true, [9, 1, 2], ⟨8, 3, 4, [9, 1, 2, 3, 0, 0, 0, 0]⟩) :=
  ⟨by decide, by decide, by decide, rfl, rfl, by decide, by decide, by decide, rfl, rfl⟩

/-- C2 (amended): for every buffer whose cursors are equal and in
`[0, capacity)`, every `n ≤ WriteSpace()` and every sequence `xs` of `n`
elements, `WriteToBuffer(xs, n)` returns true and leaves
`ReadSpace() = n - 1`; the immediately following `ReadFromBuffer(out, n)`
returns false and changes nothing when `n ≥ 1`, and
`ReadFromBuffer(out, n - 1)` returns true with the first `n - 1` elements of
`out` equal to those of `xs`, in order, also when the write or the read goes
round the end of the block. -/
theorem write_then_read (s : CyclicBuffer α) (xs out : List α) (n : Nat)
    (hwf : WellFormed s) (hrw : s.mReadPtr = s.mWritePtr)
    (hn : n ≤ WriteSpace s) (hxs : xs.length = n) (hout : n ≤ out.length) :
    ∃ s1 : CyclicBuffer α,
      WriteToBuffer s xs n = .ok (true, s1) ∧
      ReadSpace s1 = n - 1 ∧
      (1 ≤ n → ReadFromBuffer s1 out n = .ok (false, out, s1)) ∧
      ∃ (out' : List α) (s2 : CyclicBuffer α),
        ReadFromBuffer s1 out (n - 1) = .ok (true, out', s2) ∧
        out'.take (n - 1) = xs.take (n - 1) := by
  have hlt := WriteSpace_lt s hwf
  obtain ⟨buf, hwrite, hblen, hbuf⟩ := WriteToBuffer_ok s xs n hwf hn (by omega)
  obtain ⟨h0, hN, hlen, hr, hw⟩ := hwf
  have hN2 : s.mBufferSize ≤ 9223372036854775807 := hN
  have hwf1 : WellFormed (⟨s.mBufferSize, s.mReadPtr, (s.mWritePtr + n) % s.mBufferSize,
      buf⟩ : CyclicBuffer α) :=
    ⟨h0, hN, hblen, hr, Nat.mod_lt _ (by omega)⟩
  have hrs : ReadSpace (⟨s.mBufferSize, s.mReadPtr, (s.mWritePtr + n) % s.mBufferSize,
      buf⟩ : CyclicBuffer α) = n - 1 := by
    have hS : s.mBufferSize < SIZE_MOD := by unfold SIZE_MOD; omega
    have hmod : (s.mWritePtr + n) % s.mBufferSize < s.mBufferSize := Nat.mod_lt _ (by omega)
    rw [ReadSpace_eq ⟨s.mBufferSize, s.mReadPtr, (s.mWritePtr + n) % s.mBufferSize, buf⟩
      hS hr hmod]
    simp only []
    rw [add_mod_wrap (by omega)]
    split_ifs <;> omega
  refine ⟨_, hwrite, hrs, ?_, ?_⟩
  · intro hn1
    unfold ReadFromBuffer
    rw [if_pos (by omega)]
  · obtain ⟨out', hread, _, hout'⟩ := ReadFromBuffer_ok _ out (n - 1) hwf1 (by omega) (by omega)
    refine ⟨out', _, hread, ?_⟩
    apply List.ext_getElem?
    intro i
    rw [List.getElem?_take, List.getElem?_take]
    by_cases hi : i < n - 1
    · rw [if_pos hi, if_pos hi, hout' i, if_pos hi]
      show buf[(s.mReadPtr + i) % s.mBufferSize]? = xs[i]?
      rw [hrw]
      exact (ringSlot_written hw (Nat.lt_of_le_of_lt hn hlt) hbuf).1 i (by omega)
    · rw [if_neg hi, if_neg hi]

/-- C2 (amended), at capacity 8 with both cursors at 6: the write of
`[1,2,3]` goes round the end of the block. -/
theorem write_then_read_witness :
    (WellFormed (⟨8, 6, 6, [0, 0, 0, 0, 0, 0, 0, 0]⟩ : CyclicBuffer Nat) ∧
      (6 : Nat) = 6 ∧
      3 ≤ WriteSpace (⟨8, 6, 6, [0, 0, 0, 0, 0, 0, 0, 0]⟩ : CyclicBuffer Nat) ∧
      [1, 2, 3].length = 3 ∧ 3 ≤ [0, 0, 0].length) ∧
    ∃ s1 : CyclicBuffer Nat,
      WriteToBuffer (⟨8, 6, 6, [0, 0, 0, 0, 0, 0, 0, 0]⟩ : CyclicBuffer Nat) [1, 2, 3] 3 =
        .ok (true, s1) ∧
      ReadSpace s1 = 3 - 1 ∧
      (1 ≤ 3 → ReadFromBuffer s1 [0, 0, 0] 3 = .ok (false, [0, 0, 0], s1)) ∧
      ∃ (out' : List Nat) (s2 : CyclicBuffer Nat),
        ReadFromBuffer s1 [0, 0, 0] (3 - 1) = .ok (true, out', s2) ∧
        out'.take (3 - 1) = [1, 2, 3].take (3 - 1) :=
  ⟨⟨by decide, rfl, by decide, rfl, by decide⟩,
    write_then_read ⟨8, 6, 6, [0, 0, 0, 0, 0, 0, 0, 0]⟩ [1, 2, 3] [0, 0, 0] 3
      (by decide) rfl (by decide) rfl (by decide)⟩

/-! ## C3: the scenario with capacity 8 -/

/-- C3 (counterexample): in the scenario with capacity 8 and both cursors at
0, `ReadSpace()` is 4 and not 5 after the write of `[1,2,3,4,5]`, it is 3 and
not 4 after the read of 3 elements, and the final `ReadFromBuffer` of 6
elements returns false, delivering nothing, because `ReadSpace()` is 5. -/
theorem scenario_counterexample :
    WriteToBuffer (⟨8, 0, 0, [0, 0, 0, 0, 0, 0, 0, 0]⟩ : CyclicBuffer Nat) [1, 2, 3, 4, 5] 5 =
      .ok (true, ⟨8, 0, 5, [1, 2, 3, 4, 5, 0, 0, 0]⟩) ∧
    ReadSpace (⟨8, 0, 5, [1, 2, 3, 4, 5, 0, 0, 0]⟩ : CyclicBuffer Nat) = 4 ∧
    WriteToBuffer (⟨8, 0, 5, [1, 2, 3, 4, 5, 0, 0, 0]⟩ : CyclicBuffer Nat) [6, 7] 2 =
      .ok (true, ⟨8, 0, 7, [1, 2, 3, 4, 5, 6, 7, 0]⟩) ∧
    ReadFromBuffer (⟨8, 0, 7, [1, 2, 3, 4, 5, 6, 7, 0]⟩ : CyclicBuffer Nat) [0, 0, 0] 3 =
      .ok (true, [1, 2, 3], ⟨8, 3, 7, [1, 2, 3, 4, 5, 6, 7, 0]⟩) ∧
    ReadSpace (⟨8, 3, 7, [1, 2, 3, 4, 5, 6, 7, 0]⟩ : CyclicBuffer Nat) = 3 ∧
    WriteToBuffer (⟨8, 3, 7, [1, 2, 3, 4, 5, 6, 7, 0]⟩ : CyclicBuffer Nat) [8, 9] 2 =
      .ok (true, ⟨8, 3, 1, [9, 2, 3, 4, 5, 6, 7, 8]⟩) ∧
    ReadSpace (⟨8, 3, 1, [9, 2, 3, 4, 5, 6, 7, 8]⟩ : CyclicBuffer Nat) = 5 ∧
    ReadFromBuffer (⟨8, 3, 1, [9, 2, 3, 4, 5, 6, 7, 8]⟩ : CyclicBuffer Nat)
        [0, 0, 0, 0, 0, 0] 6 =
      .ok (false, [0, 0, 0, 0, 0, 0], ⟨8, 3, 1, [9, 2, 3, 4, 5, 6, 7, 8]⟩) :=
  ⟨rfl, by decide, rfl, rfl, by decide, rfl, by decide, rfl⟩

/-- C3 (amended): with capacity 8 and both cursors at 0,
`WriteToBuffer([1,2,3,4,5], 5)` succeeds and then `ReadSpace() = 4` and
`WriteSpace() = 2`; `WriteToBuffer([6,7], 2)` succeeds and then
`WriteSpace() = 0`; a further write of 1 element fails and leaves the state
unchanged; `ReadFromBuffer` of 3 returns `[1,2,3]` and then `ReadSpace() = 3`
and `WriteSpace() = 3`; `WriteToBuffer([8,9], 2)`, which goes round the end of
the block, succeeds and then `ReadSpace() = 5`; a `ReadFromBuffer` of 6 fails
and leaves the state unchanged, and a `ReadFromBuffer` of 5 succeeds and
returns `[4,5,6,7,8]`. -/
theorem scenario_capacity8 :
    WriteToBuffer (⟨8, 0, 0, [0, 0, 0, 0, 0, 0, 0, 0]⟩ : CyclicBuffer Nat) [1, 2, 3, 4, 5] 5 =
      .ok (true, ⟨8, 0, 5, [1, 2, 3, 4, 5, 0, 0, 0]⟩) ∧
    ReadSpace (⟨8, 0, 5, [1, 2, 3, 4, 5, 0, 0, 0]⟩ : CyclicBuffer Nat) = 4 ∧
    WriteSpace (⟨8, 0, 5, [1, 2, 3, 4, 5, 0, 0, 0]⟩ : CyclicBuffer Nat) = 2 ∧
    WriteToBuffer (⟨8, 0, 5, [1, 2, 3, 4, 5, 0, 0, 0]⟩ : CyclicBuffer Nat) [6, 7] 2 =
      .ok (true, ⟨8, 0, 7, [1, 2, 3, 4, 5, 6, 7, 0]⟩) ∧
    WriteSpace (⟨8, 0, 7, [1, 2, 3, 4, 5, 6, 7, 0]⟩ : CyclicBuffer Nat) = 0 ∧
    WriteToBuffer (⟨8, 0, 7, [1, 2, 3, 4, 5, 6, 7, 0]⟩ : CyclicBuffer Nat) [10] 1 =
      .ok (false, ⟨8, 0, 7, [1, 2, 3, 4, 5, 6, 7, 0]⟩) ∧
    ReadFromBuffer (⟨8, 0, 7, [1, 2, 3, 4, 5, 6, 7, 0]⟩ : CyclicBuffer Nat) [0, 0, 0] 3 =
      .ok (true, [1, 2, 3], ⟨8, 3, 7, [1, 2, 3, 4, 5, 6, 7, 0]⟩) ∧
    ReadSpace (⟨8, 3, 7, [1, 2, 3, 4, 5, 6, 7, 0]⟩ : CyclicBuffer Nat) = 3 ∧
    WriteSpace (⟨8, 3, 7, [1, 2, 3, 4, 5, 6, 7, 0]⟩ : CyclicBuffer Nat) = 3 ∧
    WriteToBuffer (⟨8, 3, 7, [1, 2, 3, 4, 5, 6, 7, 0]⟩ : CyclicBuffer Nat) [8, 9] 2 =
      .ok (true, ⟨8, 3, 1, [9, 2, 3, 4, 5, 6, 7, 8]⟩) ∧
    ReadSpace (⟨8, 3, 1, [9, 2, 3, 4, 5, 6, 7, 8]⟩ : CyclicBuffer Nat) = 5 ∧
    ReadFromBuffer (⟨8, 3, 1, [9, 2, 3, 4, 5, 6, 7, 8]⟩ : CyclicBuffer Nat)
        [0, 0, 0, 0, 0, 0] 6 =
      .ok (false, [0, 0, 0, 0, 0, 0], ⟨8, 3, 1, [9, 2, 3, 4, 5, 6, 7, 8]⟩) ∧
    ReadFromBuffer (⟨8, 3, 1, [9, 2, 3, 4, 5, 6, 7, 8]⟩ : CyclicBuffer Nat)
        [0, 0, 0, 0, 0] 5 =
      .ok (true, [4, 5, 6, 7, 8], ⟨8, 0, 1, [9, 2, 3, 4, 5, 6, 7, 8]⟩) :=
  ⟨rfl, by decide, by decide, rfl, by decide, rfl, rfl, by decide, by decide, rfl,
    by decide, rfl, rfl⟩

/-! ## C4: what a successful `WriteToBuffer` stores -/

theorem modularWrite_length (storage : List α) (w N : Nat) (source : List α) (n : Nat) :
    (modularWrite storage w N source n).length = storage.length := by
  induction n with
  | zero => rfl
  | succ n ih =>
    unfold modularWrite
    split
    · rw [List.length_set, ih]
    · exact ih

theorem modularWrite_slots (storage : List α) (w N : Nat) (source : List α) (n : Nat)
    (hw : w < N) (hn : n ≤ N) (hlen : storage.length = N) (hsrc : n ≤ source.length) :
    (∀ i, i < n → (modularWrite storage w N source n)[(w + i) % N]? = source[i]?) ∧
    (∀ j, (∀ i, i < n → j ≠ (w + i) % N) →
      (modularWrite storage w N source n)[j]? = storage[j]?) := by
  induction n with
  | zero =>
    exact ⟨fun i hi => absurd hi (Nat.not_lt_zero i), fun j _ => rfl⟩
  | succ n ih =>
    obtain ⟨ih1, ih2⟩ := ih (by omega) (by omega)
    have hx : source[n]? = some (source[n]) := List.getElem?_eq_getElem (by omega)
    have hstep : modularWrite storage w N source (n + 1) =
        (modularWrite storage w N source n).set ((w + n) % N) (source[n]) := by
      conv_lhs => unfold modularWrite
      rw [hx]
    have hslot : (w + n) % N < (modularWrite storage w N source n).length := by
      rw [modularWrite_length, hlen]
      exact Nat.mod_lt _ (by omega)
    rw [hstep]
    constructor
    · intro i hi
      rw [List.getElem?_set]
      by_cases hin : i = n
      · subst hin
        rw [if_pos rfl, if_pos hslot, hx]
      · have hne : (w + n) % N ≠ (w + i) % N := by
          rw [add_mod_wrap (by omega), add_mod_wrap (by omega)]
          split_ifs <;> omega
        rw [if_neg hne]
        exact ih1 i (by omega)
    · intro j hj
      rw [List.getElem?_set, if_neg (fun h => hj n (by omega) h.symm)]
      exact ih2 j (fun i hi => hj i (by omega))

/-- C4: for every buffer with capacity `N ≥ 1` and cursors `r, w < N` and
every source of `n ≤ WriteSpace()` elements, `WriteToBuffer` returns true, and
afterwards `storage[(w + i) mod N] = source[i]` for every `i < n`, every other
slot is unchanged, `writePos = (w + n) mod N`, and `readPos` and the capacity
are unchanged; the block is the one the element-by-element modular write
gives. -/
theorem WriteToBuffer_success (s : CyclicBuffer α) (inPtr : List α) (n : Nat)
    (hwf : WellFormed s) (hn : n ≤ WriteSpace s) (hsrc : inPtr.length = n) :
    ∃ s' : CyclicBuffer α,
      WriteToBuffer s inPtr n = .ok (true, s') ∧
      (∀ i, i < n → s'.mBuffer[(s.mWritePtr + i) % s.mBufferSize]? = inPtr[i]?) ∧
      (∀ j, j < s.mBufferSize → (∀ i, i < n → j ≠ (s.mWritePtr + i) % s.mBufferSize) →
        s'.mBuffer[j]? = s.mBuffer[j]?) ∧
      s'.mBuffer.length = s.mBufferSize ∧
      s'.mWritePtr = (s.mWritePtr + n) % s.mBufferSize ∧
      s'.mReadPtr = s.mReadPtr ∧
      s'.mBufferSize = s.mBufferSize ∧
      s'.mBuffer = modularWrite s.mBuffer s.mWritePtr s.mBufferSize inPtr n := by
  have hlt : n < s.mBufferSize := Nat.lt_of_le_of_lt hn (WriteSpace_lt s hwf)
  obtain ⟨buf, hwrite, hblen, hbuf⟩ := WriteToBuffer_ok s inPtr n hwf hn (by omega)
  obtain ⟨h0, hN, hlen, hr, hw⟩ := hwf
  obtain ⟨hnew, hold⟩ := ringSlot_written hw hlt hbuf
  obtain ⟨mnew, mold⟩ := modularWrite_slots s.mBuffer s.mWritePtr s.mBufferSize inPtr n
    hw (by omega) hlen (by omega)
  refine ⟨_, hwrite, hnew, hold, hblen, rfl, rfl, rfl, ?_⟩
  apply List.ext_getElem?
  intro j
  show buf[j]? = _
  by_cases hj : j < s.mBufferSize
  · by_cases hex : ∃ i, i < n ∧ j = (s.mWritePtr + i) % s.mBufferSize
    · obtain ⟨i, hi, rfl⟩ := hex
      rw [hnew i hi, mnew i hi]
    · have hno : ∀ i, i < n → j ≠ (s.mWritePtr + i) % s.mBufferSize :=
        fun i hi h => hex ⟨i, hi, h⟩
      rw [hold j hj hno, mold j hno]
  · rw [List.getElem?_eq_none (by omega), List.getElem?_eq_none
      (by rw [modularWrite_length]; omega)]

/-- C4, at capacity 8 with the cursors at 3 and 6: the write of `[1,2,3,4]`
fills slots 6, 7, 0 and 1. -/
theorem WriteToBuffer_success_witness :
    (WellFormed (⟨8, 3, 6, [0, 0, 0, 0, 0, 0, 0, 0]⟩ : CyclicBuffer Nat) ∧
      4 ≤ WriteSpace (⟨8, 3, 6, [0, 0, 0, 0, 0, 0, 0, 0]⟩ : CyclicBuffer Nat) ∧
      [1, 2, 3, 4].length = 4) ∧
    ∃ s' : CyclicBuffer Nat,
      WriteToBuffer (⟨8, 3, 6, [0, 0, 0, 0, 0, 0, 0, 0]⟩ : CyclicBuffer Nat) [1, 2, 3, 4] 4 =
        .ok (true, s') ∧
      (∀ i, i < 4 → s'.mBuffer[(6 + i) % 8]? = [1, 2, 3, 4][i]?) ∧
      (∀ j, j < 8 → (∀ i, i < 4 → j ≠ (6 + i) % 8) →
        s'.mBuffer[j]? = [0, 0, 0, 0, 0, 0, 0, 0][j]?) ∧
      s'.mBuffer.length = 8 ∧
      s'.mWritePtr = (6 + 4) % 8 ∧
      s'.mReadPtr = 3 ∧
      s'.mBufferSize = 8 ∧
      s'.mBuffer = modularWrite [0, 0, 0, 0, 0, 0, 0, 0] 6 8 [1, 2, 3, 4] 4 :=
  ⟨⟨by decide, by decide, rfl⟩,
    WriteToBuffer_success ⟨8, 3, 6, [0, 0, 0, 0, 0, 0, 0, 0]⟩ [1, 2, 3, 4] 4
      (by decide) (by decide) rfl⟩

/-! ## C5: what a successful `ReadFromBuffer` delivers -/

/-- C5: for every buffer with capacity `N ≥ 1` and cursors `r, w < N` and
every `n ≤ ReadSpace()`, `ReadFromBuffer` returns true and delivers
`destination[i] = storage[(r + i) mod N]` for every `i < n` (the rest of the
destination block is as before); afterwards `readPos = (r + n) mod N`, and the
storage, `writePos` and the capacity are unchanged. -/
theorem ReadFromBuffer_success (s : CyclicBuffer α) (outPtr : List α) (n : Nat)
    (hwf : WellFormed s) (hn : n ≤ ReadSpace s) (hdst : n ≤ outPtr.length) :
    ∃ (out : List α) (s' : CyclicBuffer α),
      ReadFromBuffer s outPtr n = .ok (true, out, s') ∧
      out.length = outPtr.length ∧
      (∀ i, i < n → out[i]? = s.mBuffer[(s.mReadPtr + i) % s.mBufferSize]?) ∧
      (∀ i, n ≤ i → out[i]? = outPtr[i]?) ∧
      s'.mReadPtr = (s.mReadPtr + n) % s.mBufferSize ∧
      s'.mBuffer = s.mBuffer ∧
      s'.mWritePtr = s.mWritePtr ∧
      s'.mBufferSize = s.mBufferSize := by
  obtain ⟨out, hread, holen, hout⟩ := ReadFromBuffer_ok s outPtr n hwf hn hdst
  refine ⟨out, _, hread, holen, ?_, ?_, rfl, rfl, rfl, rfl⟩
  · intro i hi
    rw [hout i, if_pos hi]
  · intro i hi
    rw [hout i, if_neg (by omega)]

/-- C5, at capacity 8 with the cursors at 6 and 3: the read of 4 elements
takes slots 6, 7, 0 and 1. -/
theorem ReadFromBuffer_success_witness :
    (WellFormed (⟨8, 6, 3, [10, 11, 12, 13, 14, 15, 16, 17]⟩ : CyclicBuffer Nat) ∧
      4 ≤ ReadSpace (⟨8, 6, 3, [10, 11, 12, 13, 14, 15, 16, 17]⟩ : CyclicBuffer Nat) ∧
      4 ≤ [0, 0, 0, 0, 0].length) ∧
    ∃ (out : List Nat) (s' : CyclicBuffer Nat),
      ReadFromBuffer (⟨8, 6, 3, [10, 11, 12, 13, 14, 15, 16, 17]⟩ : CyclicBuffer Nat)
        [0, 0, 0, 0, 0] 4 = .ok (true, out, s') ∧
      out.length = [0, 0, 0, 0, 0].length ∧
      (∀ i, i < 4 → out[i]? = [10, 11, 12, 13, 14, 15, 16, 17][(6 + i) % 8]?) ∧
      (∀ i, 4 ≤ i → out[i]? = [0, 0, 0, 0, 0][i]?) ∧
      s'.mReadPtr = (6 + 4) % 8 ∧
      s'.mBuffer = [10, 11, 12, 13, 14, 15, 16, 17] ∧
      s'.mWritePtr = 3 ∧
      s'.mBufferSize = 8 :=
  ⟨⟨by decide, by decide, by decide⟩,
    ReadFromBuffer_success ⟨8, 6, 3, [10, 11, 12, 13, 14, 15, 16, 17]⟩ [0, 0, 0, 0, 0] 4
      (by decide) (by decide) (by decide)⟩

/-! ## C6: bulk transfers that ask for too much -/

/-- C6 (counterexample): the buffer that the constructor makes for capacity 1
(with elements of 8 bytes) has the cursors 0 and 2 and reports
`WriteSpace() = 2 ^ 64 - 2`; a `WriteToBuffer` of 1 element passes the space
check, takes the split branch with `len = 1 - 2` (which wraps to
`2 ^ 64 - 1`) and copies far beyond the block of one element: it does not
return true. -/
theorem bulkTransfer_counterexample :
    construct 8 1 true = .ok (⟨1, 0, 2, [0]⟩ : CyclicBuffer Nat) ∧
    WriteSpace (⟨1, 0, 2, [0]⟩ : CyclicBuffer Nat) = 18446744073709551614 ∧
    1 ≤ WriteSpace (⟨1, 0, 2, [0]⟩ : CyclicBuffer Nat) ∧
    sizeSub 1 2 = 18446744073709551615 ∧
    WriteToBuffer (⟨1, 0, 2, [0]⟩ : CyclicBuffer Nat) [5] 1 = .error .undefinedBehaviour :=
  ⟨rfl, by decide, by decide, by decide, rfl⟩

/-- C6 (amended): `WriteToBuffer` with `writeLength > WriteSpace()` returns
false and `ReadFromBuffer` with `readLength > ReadSpace()` returns false, for
every state and every length, and the state (and the destination block) is
then exactly as before the call; for a buffer with capacity at least 1 and
cursors in `[0, capacity)`, a call whose length does not exceed the respective
space returns true. -/
theorem bulkTransfer_failure_atomic (s : CyclicBuffer α) (inPtr outPtr : List α) (n : Nat) :
    (n > WriteSpace s → WriteToBuffer s inPtr n = .ok (false, s)) ∧
    (n > ReadSpace s → ReadFromBuffer s outPtr n = .ok (false, outPtr, s)) ∧
    (WellFormed s → n ≤ WriteSpace s → n ≤ inPtr.length →
      ∃ s' : CyclicBuffer α, WriteToBuffer s inPtr n = .ok (true, s')) ∧
    (WellFormed s → n ≤ ReadSpace s → n ≤ outPtr.length →
      ∃ (out : List α) (s' : CyclicBuffer α),
        ReadFromBuffer s outPtr n = .ok (true, out, s')) := by
  refine ⟨?_, ?_, ?_, ?_⟩
  · intro h
    unfold WriteToBuffer
    rw [if_pos h]
  · intro h
    unfold ReadFromBuffer
    rw [if_pos h]
  · intro hwf hn hsrc
    obtain ⟨buf, hwrite, _⟩ := WriteToBuffer_ok s inPtr n hwf hn hsrc
    exact ⟨_, hwrite⟩
  · intro hwf hn hdst
    obtain ⟨out, hread, _⟩ := ReadFromBuffer_ok s outPtr n hwf hn hdst
    exact ⟨out, _, hread⟩

/-- C6 (amended), at capacity 8: with the cursors at 0 and 7 a transfer of 7 elements
fails in both directions; with the cursors at 0 and 3 a transfer of 2
elements succeeds in both directions. -/
theorem bulkTransfer_failure_atomic_witness :
    (7 > WriteSpace (⟨8, 0, 7, [1, 2, 3, 4, 5, 6, 7, 0]⟩ : CyclicBuffer Nat) ∧
      7 > ReadSpace (⟨8, 0, 7, [1, 2, 3, 4, 5, 6, 7, 0]⟩ : CyclicBuffer Nat) ∧
      WellFormed (⟨8, 0, 3, [1, 2, 3, 0, 0, 0, 0, 0]⟩ : CyclicBuffer Nat) ∧
      2 ≤ WriteSpace (⟨8, 0, 3, [1, 2, 3, 0, 0, 0, 0, 0]⟩ : CyclicBuffer Nat) ∧
      2 ≤ ReadSpace (⟨8, 0, 3, [1, 2, 3, 0, 0, 0, 0, 0]⟩ : CyclicBuffer Nat) ∧
      2 ≤ [8, 9].length ∧ 2 ≤ [0, 0].length) ∧
    WriteToBuffer (⟨8, 0, 7, [1, 2, 3, 4, 5, 6, 7, 0]⟩ : CyclicBuffer Nat)
        [1, 2, 3, 4, 5, 6, 7] 7 =
      .ok (false, ⟨8, 0, 7, [1, 2, 3, 4, 5, 6, 7, 0]⟩) ∧
    ReadFromBuffer (⟨8, 0, 7, [1, 2, 3, 4, 5, 6, 7, 0]⟩ : CyclicBuffer Nat)
        [0, 0, 0, 0, 0, 0, 0] 7 =
      .ok (false, [0, 0, 0, 0, 0, 0, 0], ⟨8, 0, 7, [1, 2, 3, 4, 5, 6, 7, 0]⟩) ∧
    (∃ s' : CyclicBuffer Nat,
      WriteToBuffer (⟨8, 0, 3, [1, 2, 3, 0, 0, 0, 0, 0]⟩ : CyclicBuffer Nat) [8, 9] 2 =
        .ok (true, s')) ∧
    (∃ (out : List Nat) (s' : CyclicBuffer Nat),
      ReadFromBuffer (⟨8, 0, 3, [1, 2, 3, 0, 0, 0, 0, 0]⟩ : CyclicBuffer Nat) [0, 0] 2 =
        .ok (true, out, s')) :=
  ⟨⟨by decide, by decide, by decide, by decide, by decide, by decide, by decide⟩,
    (bulkTransfer_failure_atomic ⟨8, 0, 7, [1, 2, 3, 4, 5, 6, 7, 0]⟩
      [1, 2, 3, 4, 5, 6, 7] [0, 0, 0, 0, 0, 0, 0] 7).1 (by decide),
    (bulkTransfer_failure_atomic ⟨8, 0, 7, [1, 2, 3, 4, 5, 6, 7, 0]⟩
      [1, 2, 3, 4, 5, 6, 7] [0, 0, 0, 0, 0, 0, 0] 7).2.1 (by decide),
    (bulkTransfer_failure_atomic ⟨8, 0, 3, [1, 2, 3, 0, 0, 0, 0, 0]⟩ [8, 9] [0, 0] 2).2.2.1
      (by decide) (by decide) (by decide),
    (bulkTransfer_failure_atomic ⟨8, 0, 3, [1, 2, 3, 0, 0, 0, 0, 0]⟩ [8, 9] [0, 0] 2).2.2.2
      (by decide) (by decide) (by decide)⟩

/-! ## C7: `PushBack` -/

theorem UpdateWritePtr_one (N r w : Nat) (buf : List α) (h0 : 1 ≤ N)
    (hN : N ≤ PTRDIFF_MAX) (hw : w < N) :
    UpdateWritePtr (⟨N, r, w, buf⟩ : CyclicBuffer α) 1 = .ok ⟨N, r, (w + 1) % N, buf⟩ := by
  unfold UpdateWritePtr
  unfold PTRDIFF_MAX at hN
  simp only []
  rw [if_neg (by omega), toSizeT_one, sizeAdd_eq (by unfold SIZE_MOD; omega)]

theorem UpdateReadPtr_one (N r w : Nat) (buf : List α) (h0 : 1 ≤ N)
    (hN : N ≤ PTRDIFF_MAX) (hr : r < N) :
    UpdateReadPtr (⟨N, r, w, buf⟩ : CyclicBuffer α) 1 = .ok ⟨N, (r + 1) % N, w, buf⟩ := by
  unfold UpdateReadPtr
  unfold PTRDIFF_MAX at hN
  simp only []
  rw [if_neg (by omega), toSizeT_one, sizeAdd_eq (by unfold SIZE_MOD; omega)]

theorem PushBack_not_thrown {s st : CyclicBuffer α} {x : α} {e : Thrown}
    (hws : WriteSpace s ≠ 0) : PushBack s x ≠ .error (.thrown e st) := by
  intro h
  unfold PushBack at h
  rw [if_neg hws] at h
  unfold UpdateWritePtr at h
  split_ifs at h <;> cases h

/-- C7: `PushBack(x)` throws if and only if `WriteSpace() == 0`, and it then
leaves the state as it was; otherwise, for cursors in `[0, capacity)`, it
stores `x` at `storage[writePos]`, changes no other slot, sets `writePos` to
`(writePos + 1) mod capacity` and leaves `readPos` and the capacity
unchanged. -/
theorem PushBack_spec (s : CyclicBuffer α) (x : α) :
    ((∃ (e : Thrown) (st : CyclicBuffer α), PushBack s x = .error (.thrown e st)) ↔
      WriteSpace s = 0) ∧
    (WriteSpace s = 0 → PushBack s x = .error (.thrown .noSpace s)) ∧
    (WellFormed s → WriteSpace s ≠ 0 →
      ∃ s' : CyclicBuffer α, PushBack s x = .ok s' ∧
        s'.mBuffer[s.mWritePtr]? = some x ∧
        (∀ j, j ≠ s.mWritePtr → s'.mBuffer[j]? = s.mBuffer[j]?) ∧
        s'.mBuffer.length = s.mBufferSize ∧
        s'.mWritePtr = (s.mWritePtr + 1) % s.mBufferSize ∧
        s'.mReadPtr = s.mReadPtr ∧
        s'.mBufferSize = s.mBufferSize) := by
  have hthrow : WriteSpace s = 0 → PushBack s x = .error (.thrown .noSpace s) := by
    intro h
    unfold PushBack
    rw [if_pos h]
  refine ⟨⟨?_, fun h => ⟨_, _, hthrow h⟩⟩, hthrow, ?_⟩
  · rintro ⟨e, st, h⟩
    by_contra hws
    exact PushBack_not_thrown hws h
  · rintro ⟨h0, hN, hlen, hr, hw⟩ hws
    refine ⟨⟨s.mBufferSize, s.mReadPtr, (s.mWritePtr + 1) % s.mBufferSize,
      s.mBuffer.set s.mWritePtr x⟩, ?_, ?_, ?_, ?_, rfl, rfl, rfl⟩
    · unfold PushBack
      rw [if_neg hws, if_pos (by omega)]
      exact UpdateWritePtr_one _ _ _ _ h0 hN hw
    · show (s.mBuffer.set s.mWritePtr x)[s.mWritePtr]? = some x
      rw [List.getElem?_set, if_pos rfl, if_pos (by omega)]
    · intro j hj
      show (s.mBuffer.set s.mWritePtr x)[j]? = s.mBuffer[j]?
      rw [List.getElem?_set, if_neg (fun h => hj h.symm)]
    · show (s.mBuffer.set s.mWritePtr x).length = s.mBufferSize
      rw [List.length_set, hlen]

/-- C7, at capacity 8: with the cursors at 0 and 7 the buffer has no room and
`PushBack(9)` throws; with the cursors at 3 and 7 it stores 9 in slot 7 and
moves `writePos` to 0. -/
theorem PushBack_spec_witness :
    (WriteSpace (⟨8, 0, 7, [1, 2, 3, 4, 5, 6, 7, 0]⟩ : CyclicBuffer Nat) = 0 ∧
      WellFormed (⟨8, 3, 7, [1, 2, 3, 4, 5, 6, 7, 0]⟩ : CyclicBuffer Nat) ∧
      WriteSpace (⟨8, 3, 7, [1, 2, 3, 4, 5, 6, 7, 0]⟩ : CyclicBuffer Nat) ≠ 0) ∧
    PushBack (⟨8, 0, 7, [1, 2, 3, 4, 5, 6, 7, 0]⟩ : CyclicBuffer Nat) 9 =
      .error (.thrown .noSpace ⟨8, 0, 7, [1, 2, 3, 4, 5, 6, 7, 0]⟩) ∧
    ∃ s' : CyclicBuffer Nat,
      PushBack (⟨8, 3, 7, [1, 2, 3, 4, 5, 6, 7, 0]⟩ : CyclicBuffer Nat) 9 = .ok s' ∧
        s'.mBuffer[7]? = some 9 ∧
        (∀ j, j ≠ 7 → s'.mBuffer[j]? = [1, 2, 3, 4, 5, 6, 7, 0][j]?) ∧
        s'.mBuffer.length = 8 ∧
        s'.mWritePtr = (7 + 1) % 8 ∧
        s'.mReadPtr = 3 ∧
        s'.mBufferSize = 8 :=
  ⟨⟨by decide, by decide, by decide⟩,
    (PushBack_spec ⟨8, 0, 7, [1, 2, 3, 4, 5, 6, 7, 0]⟩ 9).2.1 (by decide),
    (PushBack_spec ⟨8, 3, 7, [1, 2, 3, 4, 5, 6, 7, 0]⟩ 9).2.2 (by decide) (by decide)⟩

/-! ## C8 and C9: `PopFront` -/

/-- C8 (the code at the failing input): a buffer of capacity 8 has, directly
after `Clear()`, `ReadSpace() = 0`; `PopFront()` does not throw on it, it
returns the content of slot 0 and moves `readPos` to 1, after which
`ReadSpace()` is 6. -/
theorem PopFront_on_cleared_buffer :
    Clear (⟨8, 0, 2, [0, 0, 0, 0, 0, 0, 0, 0]⟩ : CyclicBuffer Nat) =
      ⟨8, 0, 0, [0, 0, 0, 0, 0, 0, 0, 0]⟩ ∧
    WellFormed (⟨8, 0, 0, [0, 0, 0, 0, 0, 0, 0, 0]⟩ : CyclicBuffer Nat) ∧
    ReadSpace (⟨8, 0, 0, [0, 0, 0, 0, 0, 0, 0, 0]⟩ : CyclicBuffer Nat) = 0 ∧
    PopFront (⟨8, 0, 0, [0, 0, 0, 0, 0, 0, 0, 0]⟩ : CyclicBuffer Nat) =
      .ok (0, ⟨8, 1, 0, [0, 0, 0, 0, 0, 0, 0, 0]⟩) ∧
    ReadSpace (⟨8, 1, 0, [0, 0, 0, 0, 0, 0, 0, 0]⟩ : CyclicBuffer Nat) = 6 :=
  ⟨rfl, by decide, by decide, rfl, by decide⟩

theorem PopFront_not_thrown {s st : CyclicBuffer α} {e : Thrown}
    (hws : WriteSpace s ≠ 0) : PopFront s ≠ .error (.thrown e st) := by
  intro h
  unfold PopFront at h
  rw [if_neg hws] at h
  split at h
  · cases h
  · unfold UpdateReadPtr at h
    split_ifs at h <;> cases h

/-- C9: `PopFront()` throws if and only if `WriteSpace() == 0`, and it then
leaves the state as it was; otherwise, for cursors in `[0, capacity)`, it
returns `storage[readPos]`, sets `readPos` to `(readPos + 1) mod capacity`,
and leaves the storage, `writePos` and the capacity unchanged. -/
theorem PopFront_spec (s : CyclicBuffer α) :
    ((∃ (e : Thrown) (st : CyclicBuffer α), PopFront s = .error (.thrown e st)) ↔
      WriteSpace s = 0) ∧
    (WriteSpace s = 0 → PopFront s = .error (.thrown .noData s)) ∧
    (WellFormed s → WriteSpace s ≠ 0 →
      ∃ (x : α) (s' : CyclicBuffer α), PopFront s = .ok (x, s') ∧
        s.mBuffer[s.mReadPtr]? = some x ∧
        s'.mReadPtr = (s.mReadPtr + 1) % s.mBufferSize ∧
        s'.mBuffer = s.mBuffer ∧
        s'.mWritePtr = s.mWritePtr ∧
        s'.mBufferSize = s.mBufferSize) := by
  have hthrow : WriteSpace s = 0 → PopFront s = .error (.thrown .noData s) := by
    intro h
    unfold PopFront
    rw [if_pos h]
  refine ⟨⟨?_, fun h => ⟨_, _, hthrow h⟩⟩, hthrow, ?_⟩
  · rintro ⟨e, st, h⟩
    by_contra hws
    exact PopFront_not_thrown hws h
  · rintro ⟨h0, hN, hlen, hr, hw⟩ hws
    have hx : s.mBuffer[s.mReadPtr]? = some (s.mBuffer[s.mReadPtr]) :=
      List.getElem?_eq_getElem (by omega)
    refine ⟨s.mBuffer[s.mReadPtr], ⟨s.mBufferSize, (s.mReadPtr + 1) % s.mBufferSize,
      s.mWritePtr, s.mBuffer⟩, ?_, hx, rfl, rfl, rfl, rfl⟩
    unfold PopFront
    rw [if_neg hws, hx]
    simp only [bind, Except.bind, pure, Except.pure]
    rw [UpdateReadPtr_one _ _ _ _ h0 hN hr]

/-- C9, at capacity 8: with the cursors at 0 and 7 (`WriteSpace() = 0`)
`PopFront()` throws although six elements can be read; with the cursors at 7
and 3 it returns the content of slot 7 and moves `readPos` to 0. -/
theorem PopFront_spec_witness :
    (WriteSpace (⟨8, 0, 7, [1, 2, 3, 4, 5, 6, 7, 0]⟩ : CyclicBuffer Nat) = 0 ∧
      WellFormed (⟨8, 7, 3, [1, 2, 3, 4, 5, 6, 7, 8]⟩ : CyclicBuffer Nat) ∧
      WriteSpace (⟨8, 7, 3, [1, 2, 3, 4, 5, 6, 7, 8]⟩ : CyclicBuffer Nat) ≠ 0) ∧
    PopFront (⟨8, 0, 7, [1, 2, 3, 4, 5, 6, 7, 0]⟩ : CyclicBuffer Nat) =
      .error (.thrown .noData ⟨8, 0, 7, [1, 2, 3, 4, 5, 6, 7, 0]⟩) ∧
    ∃ (x : Nat) (s' : CyclicBuffer Nat),
      PopFront (⟨8, 7, 3, [1, 2, 3, 4, 5, 6, 7, 8]⟩ : CyclicBuffer Nat) = .ok (x, s') ∧
        [1, 2, 3, 4, 5, 6, 7, 8][7]? = some x ∧
        s'.mReadPtr = (7 + 1) % 8 ∧
        s'.mBuffer = [1, 2, 3, 4, 5, 6, 7, 8] ∧
        s'.mWritePtr = 3 ∧
        s'.mBufferSize = 8 :=
  ⟨⟨by decide, by decide, by decide⟩,
    (PopFront_spec ⟨8, 0, 7, [1, 2, 3, 4, 5, 6, 7, 0]⟩).2.1 (by decide),
    (PopFront_spec ⟨8, 7, 3, [1, 2, 3, 4, 5, 6, 7, 8]⟩).2.2 (by decide) (by decide)⟩

/-! ## C10: the indexing operator -/

/-- C10: for every buffer and every offset, `operator[](offset)` throws if and
only if `offset > ReadSpace()`; otherwise, for capacity `N ≥ 1` and cursors in
`[0, N)`, it yields the slot `(readPos + offset) mod N` of the block, so that
`offset == ReadSpace()` is accepted; in both cases `readPos`, `writePos`, the
capacity and the storage are as before. -/
theorem index_spec (s : CyclicBuffer α) (pos : Nat) :
    ((∃ (e : Thrown) (st : CyclicBuffer α), index s pos = .error (.thrown e st)) ↔
      pos > ReadSpace s) ∧
    (pos > ReadSpace s → index s pos = .error (.thrown .outOfDataLength s)) ∧
    (WellFormed s → pos ≤ ReadSpace s →
      index s pos = .ok ((s.mReadPtr + pos) % s.mBufferSize, s) ∧
      (s.mReadPtr + pos) % s.mBufferSize < s.mBuffer.length) := by
  have hthrow : pos > ReadSpace s → index s pos = .error (.thrown .outOfDataLength s) := by
    intro h
    unfold index
    rw [if_pos h]
  refine ⟨⟨?_, fun h => ⟨_, _, hthrow h⟩⟩, hthrow, ?_⟩
  · rintro ⟨e, st, h⟩
    by_contra hpos
    unfold index at h
    rw [if_neg hpos] at h
    split_ifs at h <;> cases h
  · intro hwf hpos
    have hlt := ReadSpace_lt s hwf
    obtain ⟨h0, hN, hlen, hr, hw⟩ := hwf
    have hN2 : s.mBufferSize ≤ 9223372036854775807 := hN
    have hslot : (s.mReadPtr + pos) % s.mBufferSize < s.mBuffer.length := by
      rw [hlen]
      exact Nat.mod_lt _ (by omega)
    refine ⟨?_, hslot⟩
    unfold index
    rw [if_neg (by omega), if_neg (by omega), sizeAdd_eq (by unfold SIZE_MOD; omega),
      if_pos hslot]

/-- C10, at capacity 8 with the cursors at 6 and 1 (`ReadSpace() = 2`): offset
3 throws, and offset 2, equal to `ReadSpace()`, yields slot `(6 + 2) mod 8`. -/
theorem index_spec_witness :
    (3 > ReadSpace (⟨8, 6, 1, [1, 2, 3, 4, 5, 6, 7, 8]⟩ : CyclicBuffer Nat) ∧
      WellFormed (⟨8, 6, 1, [1, 2, 3, 4, 5, 6, 7, 8]⟩ : CyclicBuffer Nat) ∧
      2 ≤ ReadSpace (⟨8, 6, 1, [1, 2, 3, 4, 5, 6, 7, 8]⟩ : CyclicBuffer Nat)) ∧
    index (⟨8, 6, 1, [1, 2, 3, 4, 5, 6, 7, 8]⟩ : CyclicBuffer Nat) 3 =
      .error (.thrown .outOfDataLength ⟨8, 6, 1, [1, 2, 3, 4, 5, 6, 7, 8]⟩) ∧
    index (⟨8, 6, 1, [1, 2, 3, 4, 5, 6, 7, 8]⟩ : CyclicBuffer Nat) 2 =
      .ok ((6 + 2) % 8, ⟨8, 6, 1, [1, 2, 3, 4, 5, 6, 7, 8]⟩) ∧
    (6 + 2) % 8 < [1, 2, 3, 4, 5, 6, 7, 8].length :=
  ⟨⟨by decide, by decide, by decide⟩,
    (index_spec ⟨8, 6, 1, [1, 2, 3, 4, 5, 6, 7, 8]⟩ 3).2.1 (by decide),
    (index_spec ⟨8, 6, 1, [1, 2, 3, 4, 5, 6, 7, 8]⟩ 2).2.2 (by decide) (by decide)⟩

/-! ## C11: `Clear` -/

/-- C11: for every buffer state with capacity at least 1, after `Clear()` both
cursors are 0, `ReadSpace() = 0` and `WriteSpace() = capacity - 1`, and the
capacity and every storage slot are unchanged. -/
theorem Clear_spec (s : CyclicBuffer α) (h1 : 1 ≤ s.mBufferSize)
    (hN : s.mBufferSize < SIZE_MOD) :
    (Clear s).mReadPtr = 0 ∧ (Clear s).mWritePtr = 0 ∧
    ReadSpace (Clear s) = 0 ∧ WriteSpace (Clear s) = s.mBufferSize - 1 ∧
    (Clear s).mBufferSize = s.mBufferSize ∧ (Clear s).mBuffer = s.mBuffer := by
  refine ⟨rfl, rfl, ?_, ?_, rfl, rfl⟩
  · unfold ReadSpace Clear
    simp
  · unfold WriteSpace Clear sizeSub sizeAdd
    unfold SIZE_MOD at *
    simp only []
    split_ifs <;> omega

/-- C11, at capacity 8 with the cursors at 5 and 3. -/
theorem Clear_spec_witness :
    (1 ≤ 8 ∧ 8 < SIZE_MOD) ∧
    (Clear (⟨8, 5, 3, [1, 2, 3, 4, 5, 6, 7, 8]⟩ : CyclicBuffer Nat)).mReadPtr = 0 ∧
    (Clear (⟨8, 5, 3, [1, 2, 3, 4, 5, 6, 7, 8]⟩ : CyclicBuffer Nat)).mWritePtr = 0 ∧
    ReadSpace (Clear (⟨8, 5, 3, [1, 2, 3, 4, 5, 6, 7, 8]⟩ : CyclicBuffer Nat)) = 0 ∧
    WriteSpace (Clear (⟨8, 5, 3, [1, 2, 3, 4, 5, 6, 7, 8]⟩ : CyclicBuffer Nat)) = 8 - 1 ∧
    (Clear (⟨8, 5, 3, [1, 2, 3, 4, 5, 6, 7, 8]⟩ : CyclicBuffer Nat)).mBufferSize = 8 ∧
    (Clear (⟨8, 5, 3, [1, 2, 3, 4, 5, 6, 7, 8]⟩ : CyclicBuffer Nat)).mBuffer =
      [1, 2, 3, 4, 5, 6, 7, 8] :=
  ⟨⟨by decide, by simp [SIZE_MOD]⟩,
    Clear_spec ⟨8, 5, 3, [1, 2, 3, 4, 5, 6, 7, 8]⟩ (by decide) (by simp [SIZE_MOD])⟩

/-! ## C12: the cursors and the capacity -/

theorem blockLength_eq {sizeofT count : Nat} (hsz : 1 ≤ sizeofT)
    (hbytes : sizeofT * count < SIZE_MOD) : blockLength sizeofT count = count := by
  unfold blockLength sizeMul
  rw [Nat.mod_eq_of_lt hbytes, Nat.mul_div_cancel_left count (by omega)]

theorem Resize_ok {sizeofT : Nat} {s s' : CyclicBuffer α} {newLength : Nat}
    {answer : ReallocAnswer α} {b : Bool}
    (h : Resize sizeofT s newLength answer = .ok (b, s')) :
    (b = false ∧ s'.mBufferSize = s.mBufferSize ∧ s'.mReadPtr = s.mReadPtr ∧
      s'.mWritePtr = s.mWritePtr ∧
      (s'.mBuffer = s.mBuffer ∨ (sizeMul sizeofT newLength = 0 ∧ s'.mBuffer = []))) ∨
    (b = true ∧ ∃ fresh : Nat → α, s' = ⟨newLength, s.mReadPtr, s.mWritePtr,
      (List.range (blockLength sizeofT newLength)).map fun i =>
        (s.mBuffer[i]?).getD (fresh i)⟩) := by
  unfold Resize realloc at h
  cases answer with
  | null =>
    cases h
    exact Or.inl ⟨rfl, rfl, rfl, rfl, Or.inl rfl⟩
  | block fresh =>
    cases h
    exact Or.inr ⟨rfl, fresh, rfl⟩
  | released =>
    by_cases h0 : sizeMul sizeofT newLength = 0
    · simp only [if_pos h0] at h
      cases h
      exact Or.inl ⟨rfl, rfl, rfl, rfl, Or.inr ⟨h0, rfl⟩⟩
    · simp only [if_neg h0] at h
      cases h
      exact Or.inl ⟨rfl, rfl, rfl, rfl, Or.inl rfl⟩

/-- C12 (counterexample): the constructor called with capacity 2 (and with
capacity 1) leaves `writePos = 2`, which is not below the capacity; and
`Resize(4)` on a buffer of capacity 8 with `writePos = 6` returns true and
leaves `writePos = 6` with capacity 4. The elements have 8 bytes. -/
theorem cursor_range_counterexample :
    construct 8 2 true = .ok (⟨2, 0, 2, [0, 0]⟩ : CyclicBuffer Nat) ∧
    ¬ CursorsInRange (⟨2, 0, 2, [0, 0]⟩ : CyclicBuffer Nat) ∧
    construct 8 1 true = .ok (⟨1, 0, 2, [0]⟩ : CyclicBuffer Nat) ∧
    ¬ CursorsInRange (⟨1, 0, 2, [0]⟩ : CyclicBuffer Nat) ∧
    CursorsInRange (⟨8, 0, 6, [1, 2, 3, 4, 5, 6, 0, 0]⟩ : CyclicBuffer Nat) ∧
    Resize 8 (⟨8, 0, 6, [1, 2, 3, 4, 5, 6, 0, 0]⟩ : CyclicBuffer Nat) 4
        (.block fun _ => 0) =
      .ok (true, ⟨4, 0, 6, [1, 2, 3, 4]⟩) ∧
    ¬ CursorsInRange (⟨4, 0, 6, [1, 2, 3, 4]⟩ : CyclicBuffer Nat) :=
  ⟨rfl, by decide, rfl, by decide, by decide, rfl, by decide⟩

/-- C12 (amended): for every requested capacity from 3 on the constructor
establishes `readPos < capacity` and `writePos < capacity`; each of
`WriteToBuffer`, `ReadFromBuffer`, `PushBack`, `PopFront`, `UpdateReadPtr`,
`UpdateWritePtr` and `Clear` preserves it, whether the call succeeds, returns
false or throws; and `Resize(newCapacity)` preserves it when both cursors are
below `newCapacity`, in particular when the capacity does not shrink. -/
theorem cursor_range [Zero α] :
    (∀ (sizeofT N : Nat) (s : CyclicBuffer α), 3 ≤ N → construct sizeofT N true = .ok s →
      s.mBufferSize = N ∧ CursorsInRange s) ∧
    (∀ (s s' : CyclicBuffer α) (inPtr : List α) (n : Nat) (b : Bool),
      CursorsInRange s → WriteToBuffer s inPtr n = .ok (b, s') → CursorsInRange s') ∧
    (∀ (s s' : CyclicBuffer α) (outPtr out : List α) (n : Nat) (b : Bool),
      CursorsInRange s → ReadFromBuffer s outPtr n = .ok (b, out, s') →
      CursorsInRange s') ∧
    (∀ (s s' : CyclicBuffer α) (x : α), CursorsInRange s →
      (PushBack s x = .ok s' ∨ ∃ e, PushBack s x = .error (.thrown e s')) →
      CursorsInRange s') ∧
    (∀ (s s' : CyclicBuffer α), CursorsInRange s →
      ((∃ x, PopFront s = .ok (x, s')) ∨ ∃ e, PopFront s = .error (.thrown e s')) →
      CursorsInRange s') ∧
    (∀ (s s' : CyclicBuffer α) (len : Int),
      CursorsInRange s → UpdateReadPtr s len = .ok s' → CursorsInRange s') ∧
    (∀ (s s' : CyclicBuffer α) (len : Int),
      CursorsInRange s → UpdateWritePtr s len = .ok s' → CursorsInRange s') ∧
    (∀ s : CyclicBuffer α, CursorsInRange s → CursorsInRange (Clear s)) ∧
    (∀ (sizeofT : Nat) (s s' : CyclicBuffer α) (newLength : Nat) (answer : ReallocAnswer α)
      (b : Bool),
      CursorsInRange s → s.mReadPtr < newLength → s.mWritePtr < newLength →
      Resize sizeofT s newLength answer = .ok (b, s') → CursorsInRange s') := by
  unfold CursorsInRange
  refine ⟨?_, ?_, ?_, ?_, ?_, ?_, ?_, ?_, ?_⟩
  · intro sizeofT N s hN3 hc
    unfold construct at hc
    simp only [if_true] at hc
    cases hc
    exact ⟨rfl, by show 0 < N; omega, by show 2 < N; omega⟩
  · rintro s s' inPtr n b ⟨hr, hw⟩ h
    obtain ⟨h1, h2, h3⟩ := WriteToBuffer_cursors h
    rcases h3 with h3 | h3 <;> exact ⟨by omega, by omega⟩
  · rintro s s' outPtr out n b ⟨hr, hw⟩ h
    obtain ⟨h1, h2, h3⟩ := ReadFromBuffer_cursors h
    rcases h3 with h3 | h3 <;> exact ⟨by omega, by omega⟩
  · rintro s s' x ⟨hr, hw⟩ (h | ⟨e, h⟩)
    · obtain ⟨h1, h2, h3⟩ := PushBack_cursors h
      exact ⟨by omega, by omega⟩
    · rw [PushBack_thrown h]
      exact ⟨hr, hw⟩
  · rintro s s' ⟨hr, hw⟩ (⟨x, h⟩ | ⟨e, h⟩)
    · obtain ⟨h1, h2, h3⟩ := PopFront_cursors h
      exact ⟨by omega, by omega⟩
    · rw [PopFront_thrown h]
      exact ⟨hr, hw⟩
  · rintro s s' len ⟨hr, hw⟩ h
    obtain ⟨h1, h2, h3, _⟩ := UpdateReadPtr_frame h
    exact ⟨by omega, by omega⟩
  · rintro s s' len ⟨hr, hw⟩ h
    obtain ⟨h1, h2, h3, _⟩ := UpdateWritePtr_frame h
    exact ⟨by omega, by omega⟩
  · rintro s ⟨hr, hw⟩
    exact ⟨by show 0 < s.mBufferSize; omega, by show 0 < s.mBufferSize; omega⟩
  · rintro sizeofT s s' newLength answer b ⟨hr, hw⟩ hrn hwn h
    obtain ⟨_, h1, h2, h3, _⟩ | ⟨_, fresh, rfl⟩ := Resize_ok h
    · exact ⟨by omega, by omega⟩
    · exact ⟨hrn, hwn⟩

/-- C12 (amended), at capacity 4 with elements of 8 bytes: the constructor,
and each call on the buffer with the cursors at 1 and 2. -/
theorem cursor_range_witness :
    ((3 ≤ 4 ∧ construct 8 4 true = .ok (⟨4, 0, 2, [0, 0, 0, 0]⟩ : CyclicBuffer Nat)) ∧
      CursorsInRange (⟨4, 0, 2, [0, 0, 0, 0]⟩ : CyclicBuffer Nat)) ∧
    ((CursorsInRange (⟨4, 1, 2, [7, 8, 9, 0]⟩ : CyclicBuffer Nat) ∧
        WriteToBuffer (⟨4, 1, 2, [7, 8, 9, 0]⟩ : CyclicBuffer Nat) [5] 1 =
          .ok (true, ⟨4, 1, 3, [7, 8, 5, 0]⟩)) ∧
      CursorsInRange (⟨4, 1, 3, [7, 8, 5, 0]⟩ : CyclicBuffer Nat)) ∧
    ((CursorsInRange (⟨4, 1, 3, [7, 8, 5, 0]⟩ : CyclicBuffer Nat) ∧
        ReadFromBuffer (⟨4, 1, 3, [7, 8, 5, 0]⟩ : CyclicBuffer Nat) [0] 1 =
          .ok (true, [8], ⟨4, 2, 3, [7, 8, 5, 0]⟩)) ∧
      CursorsInRange (⟨4, 2, 3, [7, 8, 5, 0]⟩ : CyclicBuffer Nat)) ∧
    ((PushBack (⟨4, 1, 2, [7, 8, 9, 0]⟩ : CyclicBuffer Nat) 5 =
          .ok ⟨4, 1, 3, [7, 8, 5, 0]⟩) ∧
      CursorsInRange (⟨4, 1, 3, [7, 8, 5, 0]⟩ : CyclicBuffer Nat)) ∧
    ((PopFront (⟨4, 1, 2, [7, 8, 9, 0]⟩ : CyclicBuffer Nat) =
          .ok (8, ⟨4, 2, 2, [7, 8, 9, 0]⟩)) ∧
      CursorsInRange (⟨4, 2, 2, [7, 8, 9, 0]⟩ : CyclicBuffer Nat)) ∧
    ((UpdateReadPtr (⟨4, 1, 2, [7, 8, 9, 0]⟩ : CyclicBuffer Nat) (-1) =
          .ok ⟨4, 0, 2, [7, 8, 9, 0]⟩) ∧
      CursorsInRange (⟨4, 0, 2, [7, 8, 9, 0]⟩ : CyclicBuffer Nat)) ∧
    ((UpdateWritePtr (⟨4, 1, 2, [7, 8, 9, 0]⟩ : CyclicBuffer Nat) 3 =
          .ok ⟨4, 1, 1, [7, 8, 9, 0]⟩) ∧
      CursorsInRange (⟨4, 1, 1, [7, 8, 9, 0]⟩ : CyclicBuffer Nat)) ∧
    CursorsInRange (Clear (⟨4, 1, 2, [7, 8, 9, 0]⟩ : CyclicBuffer Nat)) ∧
    ((1 < 6 ∧ 2 < 6 ∧
        Resize 8 (⟨4, 1, 2, [7, 8, 9, 0]⟩ : CyclicBuffer Nat) 6 (.block fun _ => 0) =
          .ok (true, ⟨6, 1, 2, [7, 8, 9, 0, 0, 0]⟩)) ∧
      CursorsInRange (⟨6, 1, 2, [7, 8, 9, 0, 0, 0]⟩ : CyclicBuffer Nat)) :=
  have hs : CursorsInRange (⟨4, 1, 2, [7, 8, 9, 0]⟩ : CyclicBuffer Nat) := by decide
  have ht : CursorsInRange (⟨4, 1, 3, [7, 8, 5, 0]⟩ : CyclicBuffer Nat) := by decide
  ⟨⟨⟨by decide, rfl⟩, ((@cursor_range Nat _).1 8 4 _ (by decide) (by rfl)).2⟩,
    ⟨⟨hs, rfl⟩, (@cursor_range Nat _).2.1 _ _ [5] 1 true hs (by rfl)⟩,
    ⟨⟨ht, rfl⟩, (@cursor_range Nat _).2.2.1 _ _ [0] [8] 1 true ht (by rfl)⟩,
    ⟨rfl, (@cursor_range Nat _).2.2.2.1 _ _ 5 hs (Or.inl (by rfl))⟩,
    ⟨rfl, (@cursor_range Nat _).2.2.2.2.1 _ _ hs (Or.inl ⟨8, by rfl⟩)⟩,
    ⟨rfl, (@cursor_range Nat _).2.2.2.2.2.1 _ _ (-1) hs (by rfl)⟩,
    ⟨rfl, (@cursor_range Nat _).2.2.2.2.2.2.1 _ _ 3 hs (by rfl)⟩,
    (@cursor_range Nat _).2.2.2.2.2.2.2.1 _ hs,
    ⟨⟨by decide, by decide, rfl⟩,
      (@cursor_range Nat _).2.2.2.2.2.2.2.2 8 _ _ 6 (.block fun _ => 0) true hs
        (by decide) (by decide) (by rfl)⟩⟩

/-! ## C13: the newly constructed buffer -/

/-- C13 (counterexample): a buffer newly constructed with capacity 8 (elements
of 8 bytes) has `readPos = 0`, `writePos = 2` and `WriteSpace() = 5 = 8 - 3`,
but `ReadSpace()` is 1 and not 0. With capacity `2 ^ 61 + 1` the byte count
`8 * (2 ^ 61 + 1)` wraps to 8, so that the block has one slot only: the slot
at offset 1 does not exist. -/
theorem fresh_buffer_counterexample :
    construct 8 8 true = .ok (⟨8, 0, 2, [0, 0, 0, 0, 0, 0, 0, 0]⟩ : CyclicBuffer Nat) ∧
    WriteSpace (⟨8, 0, 2, [0, 0, 0, 0, 0, 0, 0, 0]⟩ : CyclicBuffer Nat) = 5 ∧
    ReadSpace (⟨8, 0, 2, [0, 0, 0, 0, 0, 0, 0, 0]⟩ : CyclicBuffer Nat) = 1 ∧
    ReadSpace (⟨8, 0, 2, [0, 0, 0, 0, 0, 0, 0, 0]⟩ : CyclicBuffer Nat) ≠ 0 ∧
    sizeMul 8 2305843009213693953 = 8 ∧
    construct 8 2305843009213693953 true =
      .ok (⟨2305843009213693953, 0, 2, [0]⟩ : CyclicBuffer Nat) ∧
    (3 ≤ 2305843009213693953 ∧ 1 < 2305843009213693953 ∧ ([0] : List Nat)[1]? = none) :=
  ⟨rfl, by decide, by decide, by decide, by rfl, by rfl, by simp⟩

/-- C13 (amended): immediately after construction with capacity `c ≥ 3` whose
byte count `sizeof(T) * c` is below `2 ^ 64`, `readPos = 0`, `writePos = 2`,
the block has `c` slots and every slot is zero, `WriteSpace() = c - 3` and
`ReadSpace() = 1`. -/
theorem fresh_buffer [Zero α] (sizeofT c : Nat) (hsz : 1 ≤ sizeofT) (h3 : 3 ≤ c)
    (hbytes : sizeofT * c < SIZE_MOD) :
    ∃ s : CyclicBuffer α, construct sizeofT c true = .ok s ∧
      s.mBufferSize = c ∧ s.mReadPtr = 0 ∧ s.mWritePtr = 2 ∧
      s.mBuffer.length = c ∧ (∀ i, i < c → s.mBuffer[i]? = some 0) ∧
      WriteSpace s = c - 3 ∧ ReadSpace s = 1 := by
  have hc : c < SIZE_MOD := Nat.lt_of_le_of_lt (Nat.le_mul_of_pos_left c (by omega)) hbytes
  have hblock : construct sizeofT c true =
      .ok (⟨c, 0, 2, List.replicate c 0⟩ : CyclicBuffer α) := by
    unfold construct
    rw [blockLength_eq hsz hbytes]
    rfl
  refine ⟨⟨c, 0, 2, List.replicate c 0⟩, hblock, rfl, rfl, rfl, List.length_replicate _ _,
    ?_, ?_, ?_⟩
  · intro i hi
    show (List.replicate c (0 : α))[i]? = some 0
    rw [List.getElem?_eq_getElem (by rw [List.length_replicate]; exact hi)]
    simp
  · rw [WriteSpace_eq _ hc (by show 0 < c; omega) (by show 2 < c; omega)]
    simp only []
    split_ifs <;> omega
  · rw [ReadSpace_eq _ hc (by show 0 < c; omega) (by show 2 < c; omega)]
    simp only []
    split_ifs <;> omega

/-- C13 (amended), at capacity 8 with elements of 8 bytes. -/
theorem fresh_buffer_witness :
    (1 ≤ 8 ∧ 3 ≤ 8 ∧ 8 * 8 < SIZE_MOD) ∧
    ∃ s : CyclicBuffer Nat, construct 8 8 true = .ok s ∧
      s.mBufferSize = 8 ∧ s.mReadPtr = 0 ∧ s.mWritePtr = 2 ∧
      s.mBuffer.length = 8 ∧ (∀ i, i < 8 → s.mBuffer[i]? = some 0) ∧
      WriteSpace s = 8 - 3 ∧ ReadSpace s = 1 :=
  ⟨⟨by decide, by decide, by simp [SIZE_MOD]⟩,
    fresh_buffer 8 8 (by decide) (by decide) (by simp [SIZE_MOD])⟩

/-! ## C14: cursor adjustment by a negative count -/

/-- C14 (the code at the failing input): with capacity 10 and the cursor at
0, `UpdateReadPtr(-1)` and `UpdateWritePtr(-1)` set the cursor to 5, the
remainder of `2 ^ 64 - 1` by 10, whereas `(0 + (-1)) mod 10` is 9; with the
cursor at 3, a step of -5 gives 4 and not 8. With capacity 8, which divides
`2 ^ 64`, the step of -1 from 0 gives 7. -/
theorem UpdatePtr_negative_delta :
    UpdateReadPtr (⟨10, 0, 0, [0, 0, 0, 0, 0, 0, 0, 0, 0, 0]⟩ : CyclicBuffer Nat) (-1) =
      .ok ⟨10, 5, 0, [0, 0, 0, 0, 0, 0, 0, 0, 0, 0]⟩ ∧
    UpdateWritePtr (⟨10, 0, 0, [0, 0, 0, 0, 0, 0, 0, 0, 0, 0]⟩ : CyclicBuffer Nat) (-1) =
      .ok ⟨10, 0, 5, [0, 0, 0, 0, 0, 0, 0, 0, 0, 0]⟩ ∧
    ((0 : Int) + (-1)) % 10 = 9 ∧
    UpdateReadPtr (⟨10, 3, 0, [0, 0, 0, 0, 0, 0, 0, 0, 0, 0]⟩ : CyclicBuffer Nat) (-5) =
      .ok ⟨10, 4, 0, [0, 0, 0, 0, 0, 0, 0, 0, 0, 0]⟩ ∧
    ((3 : Int) + (-5)) % 10 = 8 ∧
    UpdateReadPtr (⟨8, 0, 0, [0, 0, 0, 0, 0, 0, 0, 0]⟩ : CyclicBuffer Nat) (-1) =
      .ok ⟨8, 7, 0, [0, 0, 0, 0, 0, 0, 0, 0]⟩ :=
  ⟨by rfl, by rfl, by decide, by rfl, by decide, by rfl⟩

/-! ## C15: `Resize` -/

/-- C15 (counterexample), on the buffer of capacity 4 with elements of 8
bytes. `Resize(0)` asks `realloc` for zero bytes; with an allocator that then
releases the block and returns `NULL`, `Resize` returns false and the storage
is gone. `Resize(2 ^ 61 + 1)` asks for `8 * (2 ^ 61 + 1)` bytes, which wraps to
8; `Resize` returns true with capacity `2 ^ 61 + 1` and a block of one slot, so
that the slot at offset 1, below both capacities, is not kept. -/
theorem Resize_counterexample :
    sizeMul 8 0 = 0 ∧
    Resize 8 (⟨4, 1, 2, [7, 8, 9, 0]⟩ : CyclicBuffer Nat) 0 .released =
      .ok (false, ⟨4, 1, 2, []⟩) ∧
    (⟨4, 1, 2, []⟩ : CyclicBuffer Nat) ≠ ⟨4, 1, 2, [7, 8, 9, 0]⟩ ∧
    sizeMul 8 2305843009213693953 = 8 ∧
    Resize 8 (⟨4, 1, 2, [7, 8, 9, 0]⟩ : CyclicBuffer Nat) 2305843009213693953
        (.block fun _ => 5) =
      .ok (true, ⟨2305843009213693953, 1, 2, [7]⟩) ∧
    1 < min 4 2305843009213693953 ∧
    ([7] : List Nat)[1]? = none ∧ ([7, 8, 9, 0] : List Nat)[1]? = some 8 :=
  ⟨by rfl, by rfl, by decide, by rfl, by rfl, by decide, by simp, by simp⟩

/-- C15 (amended): for a buffer with capacity at least 1 and every
`newCapacity ≥ 1` whose byte count `sizeof(T) * newCapacity` is below
`2 ^ 64`, `Resize(newCapacity)` returns true or false; whenever it returns
true, the capacity is `newCapacity`, the block has `newCapacity` slots,
`readPos` and `writePos` are exactly as before and `storage[i]` is unchanged
for every `i` below both capacities; whenever it returns false, the capacity,
the cursors and the storage are unchanged. -/
theorem Resize_frame (sizeofT : Nat) (s : CyclicBuffer α) (newLength : Nat)
    (answer : ReallocAnswer α) (hsz : 1 ≤ sizeofT) (h1 : 1 ≤ newLength)
    (hbytes : sizeofT * newLength < SIZE_MOD) (hN : 1 ≤ s.mBufferSize)
    (hlen : s.mBuffer.length = s.mBufferSize) :
    (∃ (b : Bool) (s' : CyclicBuffer α), Resize sizeofT s newLength answer = .ok (b, s')) ∧
    (∀ s' : CyclicBuffer α, Resize sizeofT s newLength answer = .ok (true, s') →
      s'.mBufferSize = newLength ∧ s'.mBuffer.length = newLength ∧
      s'.mReadPtr = s.mReadPtr ∧ s'.mWritePtr = s.mWritePtr ∧
      ∀ i, i < min s.mBufferSize newLength → s'.mBuffer[i]? = s.mBuffer[i]?) ∧
    (∀ s' : CyclicBuffer α, Resize sizeofT s newLength answer = .ok (false, s') →
      s' = s) := by
  have hblock := blockLength_eq hsz hbytes
  have hnz : sizeMul sizeofT newLength ≠ 0 := by
    unfold sizeMul
    rw [Nat.mod_eq_of_lt hbytes]
    exact Nat.ne_of_gt (Nat.mul_pos (by omega) (by omega))
  refine ⟨?_, ?_, ?_⟩
  · unfold Resize realloc
    cases answer with
    | null => exact ⟨false, _, rfl⟩
    | block fresh => exact ⟨true, _, rfl⟩
    | released =>
      simp only [if_neg hnz]
      exact ⟨false, _, rfl⟩
  · intro s' h
    obtain ⟨hb, _⟩ | ⟨_, fresh, rfl⟩ := Resize_ok h
    · cases hb
    · rw [hblock]
      refine ⟨rfl, by simp, rfl, rfl, ?_⟩
      intro i hi
      have hi1 : i < newLength := by omega
      have hi2 : i < s.mBuffer.length := by omega
      simp [hi1, List.getElem?_eq_getElem hi2]
  · intro s' h
    obtain ⟨_, e1, e2, e3, e4⟩ | ⟨hb, _⟩ := Resize_ok h
    · have e5 : s'.mBuffer = s.mBuffer := by
        rcases e4 with e4 | ⟨e4, _⟩
        · exact e4
        · exact absurd e4 hnz
      cases s
      cases s'
      simp only [CyclicBuffer.mk.injEq]
      exact ⟨e1, e2, e3, e5⟩
    · cases hb

/-- C15 (amended), at capacity 4 with elements of 8 bytes: growing to 6 and
shrinking to 2 with an allocator that returns a block, and growing to 6 with
an allocator that returns `NULL`. -/
theorem Resize_frame_witness :
    (1 ≤ 8 ∧ 1 ≤ 6 ∧ 1 ≤ 2 ∧ 8 * 6 < SIZE_MOD ∧ 8 * 2 < SIZE_MOD ∧ 1 ≤ 4 ∧
      [7, 8, 9, 0].length = 4 ∧
      Resize 8 (⟨4, 1, 2, [7, 8, 9, 0]⟩ : CyclicBuffer Nat) 6 (.block fun _ => 5) =
        .ok (true, ⟨6, 1, 2, [7, 8, 9, 0, 5, 5]⟩) ∧
      Resize 8 (⟨4, 1, 2, [7, 8, 9, 0]⟩ : CyclicBuffer Nat) 2 (.block fun _ => 5) =
        .ok (true, ⟨2, 1, 2, [7, 8]⟩) ∧
      Resize 8 (⟨4, 1, 2, [7, 8, 9, 0]⟩ : CyclicBuffer Nat) 6 .null =
        .ok (false, ⟨4, 1, 2, [7, 8, 9, 0]⟩)) ∧
    (∃ (b : Bool) (s' : CyclicBuffer Nat),
      Resize 8 (⟨4, 1, 2, [7, 8, 9, 0]⟩ : CyclicBuffer Nat) 6 (.block fun _ => 5) =
        .ok (b, s')) ∧
    (∀ i, i < min 4 6 → [7, 8, 9, 0, 5, 5][i]? = [7, 8, 9, 0][i]?) ∧
    (∀ i, i < min 4 2 → [7, 8][i]? = [7, 8, 9, 0][i]?) ∧
    (⟨4, 1, 2, [7, 8, 9, 0]⟩ : CyclicBuffer Nat) = ⟨4, 1, 2, [7, 8, 9, 0]⟩ :=
  ⟨⟨by decide, by decide, by decide, by simp [SIZE_MOD], by simp [SIZE_MOD], by decide, rfl,
      by rfl, by rfl, by rfl⟩,
    (Resize_frame 8 ⟨4, 1, 2, [7, 8, 9, 0]⟩ 6 (.block fun _ => 5) (by decide) (by decide)
      (by simp [SIZE_MOD]) (by decide) rfl).1,
    ((Resize_frame 8 ⟨4, 1, 2, [7, 8, 9, 0]⟩ 6 (.block fun _ => 5) (by decide) (by decide)
      (by simp [SIZE_MOD]) (by decide) rfl).2.1 ⟨6, 1, 2, [7, 8, 9, 0, 5, 5]⟩
      (by rfl)).2.2.2.2,
    ((Resize_frame 8 ⟨4, 1, 2, [7, 8, 9, 0]⟩ 2 (.block fun _ => 5) (by decide) (by decide)
      (by simp [SIZE_MOD]) (by decide) rfl).2.1 ⟨2, 1, 2, [7, 8]⟩ (by rfl)).2.2.2.2,
    (Resize_frame 8 ⟨4, 1, 2, [7, 8, 9, 0]⟩ 6 .null (by decide) (by decide)
      (by simp [SIZE_MOD]) (by decide) rfl).2.2 ⟨4, 1, 2, [7, 8, 9, 0]⟩ (by rfl)⟩

/-! ## The space reports after a transfer -/

theorem ReadSpace_mk (N r w : Nat) (buf : List α) (hN : N < SIZE_MOD) (hr : r < N)
    (hw : w < N) :
    ReadSpace (⟨N, r, w, buf⟩ : CyclicBuffer α) =
      if r < w then w - r - 1 else if w < r then N + w - r - 1 else 0 :=
  ReadSpace_eq ⟨N, r, w, buf⟩ hN hr hw

theorem WriteSpace_mk (N r w : Nat) (buf : List α) (hN : N < SIZE_MOD) (hr : r < N)
    (hw : w < N) :
    WriteSpace (⟨N, r, w, buf⟩ : CyclicBuffer α) =
      if r ≤ w then N + r - w - 1 else r - w - 1 :=
  WriteSpace_eq ⟨N, r, w, buf⟩ hN hr hw

theorem spaces_after_write (N r w n : Nat) (buf buf' : List α) (hN : N < SIZE_MOD)
    (hr : r < N) (hw : w < N)
    (hn : n ≤ WriteSpace (⟨N, r, w, buf⟩ : CyclicBuffer α)) :
    WriteSpace (⟨N, r, (w + n) % N, buf'⟩ : CyclicBuffer α) + n =
      WriteSpace (⟨N, r, w, buf⟩ : CyclicBuffer α) ∧
    ReadSpace (⟨N, r, w, buf⟩ : CyclicBuffer α) ≤
      ReadSpace (⟨N, r, (w + n) % N, buf'⟩ : CyclicBuffer α) := by
  have hmod : (w + n) % N < N := Nat.mod_lt _ (by omega)
  rw [WriteSpace_mk N r w buf hN hr hw] at hn
  rw [WriteSpace_mk N r w buf hN hr hw, WriteSpace_mk N r _ buf' hN hr hmod,
    ReadSpace_mk N r w buf hN hr hw, ReadSpace_mk N r _ buf' hN hr hmod]
  have hlt : w + n < 2 * N := by split_ifs at hn <;> omega
  rw [add_mod_wrap hlt]
  split_ifs at hn ⊢ <;> omega

theorem spaces_after_read (N r w n : Nat) (buf : List α) (hN : N < SIZE_MOD)
    (hr : r < N) (hw : w < N)
    (hn : n ≤ ReadSpace (⟨N, r, w, buf⟩ : CyclicBuffer α)) :
    ReadSpace (⟨N, (r + n) % N, w, buf⟩ : CyclicBuffer α) + n =
      ReadSpace (⟨N, r, w, buf⟩ : CyclicBuffer α) ∧
    WriteSpace (⟨N, (r + n) % N, w, buf⟩ : CyclicBuffer α) =
      WriteSpace (⟨N, r, w, buf⟩ : CyclicBuffer α) + n := by
  have hmod : (r + n) % N < N := Nat.mod_lt _ (by omega)
  rw [ReadSpace_mk N r w buf hN hr hw] at hn
  rw [WriteSpace_mk N r w buf hN hr hw, WriteSpace_mk N _ w buf hN hmod hw,
    ReadSpace_mk N r w buf hN hr hw, ReadSpace_mk N _ w buf hN hmod hw]
  have hlt : r + n < 2 * N := by split_ifs at hn <;> omega
  rw [add_mod_wrap hlt]
  split_ifs at hn ⊢ <;> omega

/-! ## C16: a write leaves the unread elements alone -/

theorem readable_not_written {N r w n i k : Nat} (hr : r < N) (hw : w < N)
    (hi : i < (if r < w then w - r - 1 else if w < r then N + w - r - 1 else 0))
    (hn : n ≤ (if r ≤ w then N + r - w - 1 else r - w - 1)) (hk : k < n) :
    (r + i) % N ≠ (w + k) % N := by
  have h1 : r + i < 2 * N := by split_ifs at hi <;> omega
  have h2 : w + k < 2 * N := by split_ifs at hn <;> omega
  rw [add_mod_wrap h1, add_mod_wrap h2]
  split_ifs at hi hn ⊢ <;> omega

theorem PushBack_ok (s : CyclicBuffer α) (x : α) (hwf : WellFormed s)
    (hws : WriteSpace s ≠ 0) :
    PushBack s x = .ok ⟨s.mBufferSize, s.mReadPtr, (s.mWritePtr + 1) % s.mBufferSize,
      s.mBuffer.set s.mWritePtr x⟩ := by
  obtain ⟨h0, hN, hlen, hr, hw⟩ := hwf
  unfold PushBack
  rw [if_neg hws, if_pos (by omega)]
  exact UpdateWritePtr_one _ _ _ _ h0 hN hw

theorem read_same_of_slots (s s' : CyclicBuffer α) (outPtr : List α) (m : Nat)
    (hwf : WellFormed s) (hwf' : WellFormed s') (hN : s'.mBufferSize = s.mBufferSize)
    (hr : s'.mReadPtr = s.mReadPtr) (hm : m ≤ ReadSpace s) (hm' : m ≤ ReadSpace s')
    (hdst : m ≤ outPtr.length)
    (hsame : ∀ i, i < m → s'.mBuffer[(s.mReadPtr + i) % s.mBufferSize]? =
      s.mBuffer[(s.mReadPtr + i) % s.mBufferSize]?) :
    ∃ (out : List α) (s1 s2 : CyclicBuffer α),
      ReadFromBuffer s outPtr m = .ok (true, out, s1) ∧
      ReadFromBuffer s' outPtr m = .ok (true, out, s2) := by
  obtain ⟨out1, hread1, _, hout1⟩ := ReadFromBuffer_ok s outPtr m hwf hm hdst
  obtain ⟨out2, hread2, _, hout2⟩ := ReadFromBuffer_ok s' outPtr m hwf' hm' hdst
  have heq : out2 = out1 := by
    apply List.ext_getElem?
    intro i
    rw [hout1 i, hout2 i, hN, hr]
    by_cases hi : i < m
    · rw [if_pos hi, if_pos hi, hsame i hi]
    · rw [if_neg hi, if_neg hi]
  rw [heq] at hread2
  exact ⟨out1, _, _, hread1, hread2⟩

/-- C16: for every buffer with capacity `N ≥ 1` and cursors in `[0, N)`, a
successful `WriteToBuffer(src, n)` (`n ≤ WriteSpace()`) and a successful
`PushBack(x)` leave `storage[(readPos + i) mod N]` unchanged for every
`i < ReadSpace()`, `ReadSpace()` being taken before the write; a
`ReadFromBuffer` of any `m ≤ ReadSpace()` elements delivers after the write
what it delivers before it. -/
theorem write_keeps_unread (s : CyclicBuffer α) (hwf : WellFormed s) :
    (∀ (inPtr : List α) (n : Nat), n ≤ WriteSpace s → inPtr.length = n →
      ∃ s' : CyclicBuffer α, WriteToBuffer s inPtr n = .ok (true, s') ∧
        (∀ i, i < ReadSpace s → s'.mBuffer[(s.mReadPtr + i) % s.mBufferSize]? =
          s.mBuffer[(s.mReadPtr + i) % s.mBufferSize]?) ∧
        (∀ (outPtr : List α) (m : Nat), m ≤ ReadSpace s → m ≤ outPtr.length →
          ∃ (out : List α) (s1 s2 : CyclicBuffer α),
            ReadFromBuffer s outPtr m = .ok (true, out, s1) ∧
            ReadFromBuffer s' outPtr m = .ok (true, out, s2))) ∧
    (∀ x : α, WriteSpace s ≠ 0 →
      ∃ s' : CyclicBuffer α, PushBack s x = .ok s' ∧
        (∀ i, i < ReadSpace s → s'.mBuffer[(s.mReadPtr + i) % s.mBufferSize]? =
          s.mBuffer[(s.mReadPtr + i) % s.mBufferSize]?) ∧
        (∀ (outPtr : List α) (m : Nat), m ≤ ReadSpace s → m ≤ outPtr.length →
          ∃ (out : List α) (s1 s2 : CyclicBuffer α),
            ReadFromBuffer s outPtr m = .ok (true, out, s1) ∧
            ReadFromBuffer s' outPtr m = .ok (true, out, s2))) := by
  have hwf0 := hwf
  obtain ⟨h0, hN, hlen, hr, hw⟩ := hwf
  have hS : s.mBufferSize < SIZE_MOD := by
    unfold PTRDIFF_MAX at hN
    unfold SIZE_MOD
    omega
  have hRS := ReadSpace_eq s hS hr hw
  have hWS := WriteSpace_eq s hS hr hw
  constructor
  · intro inPtr n hn hsrc
    have hlt : n < s.mBufferSize := Nat.lt_of_le_of_lt hn (WriteSpace_lt s hwf0)
    obtain ⟨buf, hwrite, hblen, hbuf⟩ := WriteToBuffer_ok s inPtr n hwf0 hn (by omega)
    have hold := (ringSlot_written hw hlt hbuf).2
    have hsame : ∀ i, i < ReadSpace s → buf[(s.mReadPtr + i) % s.mBufferSize]? =
        s.mBuffer[(s.mReadPtr + i) % s.mBufferSize]? := by
      intro i hi
      apply hold _ (Nat.mod_lt _ (by omega))
      intro k hk
      exact readable_not_written hr hw (hRS ▸ hi) (hWS ▸ hn) hk
    have hmod : (s.mWritePtr + n) % s.mBufferSize < s.mBufferSize :=
      Nat.mod_lt _ (by omega)
    refine ⟨_, hwrite, hsame, ?_⟩
    intro outPtr m hm hdst
    exact read_same_of_slots s _ outPtr m hwf0 ⟨h0, hN, hblen, hr, hmod⟩ rfl rfl hm
      (Nat.le_trans hm (spaces_after_write s.mBufferSize s.mReadPtr s.mWritePtr n
        s.mBuffer buf hS hr hw hn).2) hdst (fun i hi => hsame i (by omega))
  · intro x hws
    have hsame : ∀ i, i < ReadSpace s →
        (s.mBuffer.set s.mWritePtr x)[(s.mReadPtr + i) % s.mBufferSize]? =
        s.mBuffer[(s.mReadPtr + i) % s.mBufferSize]? := by
      intro i hi
      have hne := readable_not_written (n := 1) (k := 0) hr hw (hRS ▸ hi)
        (hWS ▸ (by omega)) (by omega)
      rw [Nat.add_zero, Nat.mod_eq_of_lt hw] at hne
      rw [List.getElem?_set, if_neg (fun h => hne h.symm)]
    have hmod : (s.mWritePtr + 1) % s.mBufferSize < s.mBufferSize :=
      Nat.mod_lt _ (by omega)
    refine ⟨_, PushBack_ok s x hwf0 hws, hsame, ?_⟩
    intro outPtr m hm hdst
    exact read_same_of_slots s _ outPtr m hwf0
      ⟨h0, hN, by show (s.mBuffer.set s.mWritePtr x).length = _; rw [List.length_set, hlen],
        hr, hmod⟩ rfl rfl hm
      (Nat.le_trans hm (spaces_after_write s.mBufferSize s.mReadPtr s.mWritePtr 1
        s.mBuffer _ hS hr hw (Nat.pos_of_ne_zero hws)).2) hdst
      (fun i hi => hsame i (by omega))

/-- C16, at capacity 8 with the cursors at 6 and 1 (`ReadSpace() = 2`,
`WriteSpace() = 4`): a write of 4 elements and a `PushBack`. -/
theorem write_keeps_unread_witness :
    (WellFormed (⟨8, 6, 1, [1, 2, 3, 4, 5, 6, 7, 8]⟩ : CyclicBuffer Nat) ∧
      4 ≤ WriteSpace (⟨8, 6, 1, [1, 2, 3, 4, 5, 6, 7, 8]⟩ : CyclicBuffer Nat) ∧
      [9, 9, 9, 9].length = 4 ∧
      WriteSpace (⟨8, 6, 1, [1, 2, 3, 4, 5, 6, 7, 8]⟩ : CyclicBuffer Nat) ≠ 0) ∧
    (∃ s' : CyclicBuffer Nat,
      WriteToBuffer (⟨8, 6, 1, [1, 2, 3, 4, 5, 6, 7, 8]⟩ : CyclicBuffer Nat)
        [9, 9, 9, 9] 4 = .ok (true, s') ∧
      (∀ i, i < ReadSpace (⟨8, 6, 1, [1, 2, 3, 4, 5, 6, 7, 8]⟩ : CyclicBuffer Nat) →
        s'.mBuffer[(6 + i) % 8]? = [1, 2, 3, 4, 5, 6, 7, 8][(6 + i) % 8]?) ∧
      (∀ (outPtr : List Nat) (m : Nat),
        m ≤ ReadSpace (⟨8, 6, 1, [1, 2, 3, 4, 5, 6, 7, 8]⟩ : CyclicBuffer Nat) →
        m ≤ outPtr.length →
        ∃ (out : List Nat) (s1 s2 : CyclicBuffer Nat),
          ReadFromBuffer (⟨8, 6, 1, [1, 2, 3, 4, 5, 6, 7, 8]⟩ : CyclicBuffer Nat) outPtr m =
            .ok (true, out, s1) ∧
          ReadFromBuffer s' outPtr m = .ok (true, out, s2))) ∧
    (∃ s' : CyclicBuffer Nat,
      PushBack (⟨8, 6, 1, [1, 2, 3, 4, 5, 6, 7, 8]⟩ : CyclicBuffer Nat) 9 = .ok s' ∧
      (∀ i, i < ReadSpace (⟨8, 6, 1, [1, 2, 3, 4, 5, 6, 7, 8]⟩ : CyclicBuffer Nat) →
        s'.mBuffer[(6 + i) % 8]? = [1, 2, 3, 4, 5, 6, 7, 8][(6 + i) % 8]?) ∧
      (∀ (outPtr : List Nat) (m : Nat),
        m ≤ ReadSpace (⟨8, 6, 1, [1, 2, 3, 4, 5, 6, 7, 8]⟩ : CyclicBuffer Nat) →
        m ≤ outPtr.length →
        ∃ (out : List Nat) (s1 s2 : CyclicBuffer Nat),
          ReadFromBuffer (⟨8, 6, 1, [1, 2, 3, 4, 5, 6, 7, 8]⟩ : CyclicBuffer Nat) outPtr m =
            .ok (true, out, s1) ∧
          ReadFromBuffer s' outPtr m = .ok (true, out, s2))) :=
  ⟨⟨by decide, by decide, rfl, by decide⟩,
    (write_keeps_unread ⟨8, 6, 1, [1, 2, 3, 4, 5, 6, 7, 8]⟩ (by decide)).1 [9, 9, 9, 9] 4
      (by decide) rfl,
    (write_keeps_unread ⟨8, 6, 1, [1, 2, 3, 4, 5, 6, 7, 8]⟩ (by decide)).2 9 (by decide)⟩

/-! ## C17: `PushBack` and `PopFront` in sequence -/

theorem PopFront_ok (s : CyclicBuffer α) (hwf : WellFormed s) (hws : WriteSpace s ≠ 0) :
    ∃ x : α, s.mBuffer[s.mReadPtr]? = some x ∧
      PopFront s = .ok (x, ⟨s.mBufferSize, (s.mReadPtr + 1) % s.mBufferSize, s.mWritePtr,
        s.mBuffer⟩) := by
  obtain ⟨h0, hN, hlen, hr, hw⟩ := hwf
  have hx : s.mBuffer[s.mReadPtr]? = some (s.mBuffer[s.mReadPtr]) :=
    List.getElem?_eq_getElem (by omega)
  refine ⟨_, hx, ?_⟩
  unfold PopFront
  rw [if_neg hws, hx]
  simp only [bind, Except.bind, pure, Except.pure]
  rw [UpdateReadPtr_one _ _ _ _ h0 hN hr]

theorem pushBackAll_ok (N : Nat) (hN3 : 3 ≤ N) (hN : N ≤ PTRDIFF_MAX) (xs : List α) :
    ∀ (j : Nat) (buf : List α), buf.length = N → j + xs.length ≤ N - 2 →
      ∃ buf' : List α,
        pushBackAll (⟨N, 0, j, buf⟩ : CyclicBuffer α) xs =
          .ok ⟨N, 0, j + xs.length, buf'⟩ ∧
        buf'.length = N ∧
        (∀ i, i < xs.length → buf'[j + i]? = xs[i]?) ∧
        (∀ i, i < j → buf'[i]? = buf[i]?) := by
  have hS : N < SIZE_MOD := by
    unfold PTRDIFF_MAX at hN
    unfold SIZE_MOD
    omega
  induction xs with
  | nil =>
    intro j buf hlen _
    exact ⟨buf, rfl, hlen, fun i hi => absurd hi (Nat.not_lt_zero i), fun i _ => rfl⟩
  | cons x xs ih =>
    intro j buf hlen hj
    rw [List.length_cons] at hj
    have hwf : WellFormed (⟨N, 0, j, buf⟩ : CyclicBuffer α) :=
      ⟨by show 1 ≤ N; omega, hN, hlen, by show 0 < N; omega, by show j < N; omega⟩
    have hws : WriteSpace (⟨N, 0, j, buf⟩ : CyclicBuffer α) ≠ 0 := by
      rw [WriteSpace_mk N 0 j buf hS (by omega) (by omega)]
      split_ifs <;> omega
    have hpush := PushBack_ok _ x hwf hws
    have hmod : (j + 1) % N = j + 1 := Nat.mod_eq_of_lt (by omega)
    obtain ⟨buf', hall, hlen', hnew, hold⟩ :=
      ih (j + 1) (buf.set j x) (by rw [List.length_set, hlen]) (by omega)
    refine ⟨buf', ?_, hlen', ?_, ?_⟩
    · show (PushBack (⟨N, 0, j, buf⟩ : CyclicBuffer α) x >>= fun s' => pushBackAll s' xs) = _
      rw [hpush]
      show pushBackAll (⟨N, 0, (j + 1) % N, buf.set j x⟩ : CyclicBuffer α) xs = _
      rw [hmod, hall, List.length_cons, Nat.add_assoc, Nat.add_comm 1 xs.length]
    · intro i hi
      cases i with
      | zero =>
        rw [Nat.add_zero, hold j (by omega), List.getElem?_set, if_pos rfl,
          if_pos (by omega), List.getElem?_cons_zero]
      | succ i =>
        rw [List.length_cons] at hi
        have := hnew i (by omega)
        rw [show j + (i + 1) = j + 1 + i by omega, this, List.getElem?_cons_succ]
    · intro i hi
      rw [hold i (by omega), List.getElem?_set, if_neg (by omega)]

theorem popFrontTimes_ok (N w : Nat) (buf : List α) (hN3 : 3 ≤ N) (hN : N ≤ PTRDIFF_MAX)
    (hlen : buf.length = N) (hw : w ≤ N - 2) (k : Nat) :
    ∀ i : Nat, i + k ≤ w →
      popFrontTimes (⟨N, i, w, buf⟩ : CyclicBuffer α) k =
        .ok ((buf.drop i).take k, ⟨N, i + k, w, buf⟩) := by
  have hS : N < SIZE_MOD := by
    unfold PTRDIFF_MAX at hN
    unfold SIZE_MOD
    omega
  induction k with
  | zero =>
    intro i _
    rw [List.take_zero]
    rfl
  | succ k ih =>
    intro i hi
    have hwf : WellFormed (⟨N, i, w, buf⟩ : CyclicBuffer α) :=
      ⟨by show 1 ≤ N; omega, hN, hlen, by show i < N; omega, by show w < N; omega⟩
    have hws : WriteSpace (⟨N, i, w, buf⟩ : CyclicBuffer α) ≠ 0 := by
      rw [WriteSpace_mk N i w buf hS (by omega) (by omega)]
      split_ifs <;> omega
    obtain ⟨x, hx, hpop⟩ := PopFront_ok _ hwf hws
    have hmod : (i + 1) % N = i + 1 := Nat.mod_eq_of_lt (by omega)
    have hil : i < buf.length := by omega
    have hx2 : buf[i]? = some x := hx
    rw [List.getElem?_eq_getElem hil] at hx2
    have hxe : buf[i] = x := Option.some.inj hx2
    show (PopFront (⟨N, i, w, buf⟩ : CyclicBuffer α) >>= fun r =>
      popFrontTimes r.2 k >>= fun rest => pure (r.1 :: rest.1, rest.2)) = _
    rw [hpop]
    show (popFrontTimes (⟨N, (i + 1) % N, w, buf⟩ : CyclicBuffer α) k >>= fun rest =>
      (pure (x :: rest.1, rest.2) : Except (Fault α) (List α × CyclicBuffer α))) = _
    rw [hmod, ih (i + 1) (by omega)]
    show Except.ok (x :: (buf.drop (i + 1)).take k, (⟨N, i + 1 + k, w, buf⟩ : CyclicBuffer α))
      = _
    rw [List.drop_eq_getElem_cons hil, List.take_succ_cons, hxe]
    congr 3
    omega

/-- C17: for every capacity `N ≥ 3`, every `k ≤ N - 2` and every sequence
`x1 .. xk`, starting from `Clear()`, the `k` calls `PushBack(x1)` ..
`PushBack(xk)` followed by `k` calls of `PopFront()` all return, the
`PopFront` calls return `x1, .., xk` in this order, and the final state has
`readPos = writePos = k mod N`. -/
theorem pushBack_popFront_fifo (s : CyclicBuffer α) (xs : List α)
    (hN3 : 3 ≤ s.mBufferSize) (hN : s.mBufferSize ≤ PTRDIFF_MAX)
    (hlen : s.mBuffer.length = s.mBufferSize) (hk : xs.length ≤ s.mBufferSize - 2) :
    ∃ s1 s2 : CyclicBuffer α,
      pushBackAll (Clear s) xs = .ok s1 ∧
      popFrontTimes s1 xs.length = .ok (xs, s2) ∧
      s2.mReadPtr = xs.length % s.mBufferSize ∧
      s2.mWritePtr = xs.length % s.mBufferSize := by
  obtain ⟨buf', hpush, hlen', hnew, _⟩ :=
    pushBackAll_ok s.mBufferSize hN3 hN xs 0 s.mBuffer hlen (by omega)
  have hpop := popFrontTimes_ok s.mBufferSize (0 + xs.length) buf' hN3 hN hlen' (by omega)
    xs.length 0 (by omega)
  have hout : (buf'.drop 0).take xs.length = xs := by
    apply List.ext_getElem?
    intro i
    rw [List.drop_zero, List.getElem?_take]
    by_cases hi : i < xs.length
    · rw [if_pos hi]
      have := hnew i hi
      rw [Nat.zero_add] at this
      exact this
    · rw [if_neg hi, List.getElem?_eq_none (by omega)]
  rw [hout] at hpop
  have hmod : xs.length % s.mBufferSize = xs.length := Nat.mod_eq_of_lt (by omega)
  refine ⟨_, _, hpush, hpop, ?_, ?_⟩
  · show 0 + xs.length = _
    rw [hmod, Nat.zero_add]
  · show 0 + xs.length = _
    rw [hmod, Nat.zero_add]

/-- C17, at capacity 8 with `k = 6 = 8 - 2`. -/
theorem pushBack_popFront_fifo_witness :
    (3 ≤ 8 ∧ 8 ≤ PTRDIFF_MAX ∧ [0, 0, 0, 0, 0, 0, 0, 0].length = 8 ∧
      [1, 2, 3, 4, 5, 6].length ≤ 8 - 2) ∧
    ∃ s1 s2 : CyclicBuffer Nat,
      pushBackAll (Clear (⟨8, 0, 2, [0, 0, 0, 0, 0, 0, 0, 0]⟩ : CyclicBuffer Nat))
        [1, 2, 3, 4, 5, 6] = .ok s1 ∧
      popFrontTimes s1 [1, 2, 3, 4, 5, 6].length = .ok ([1, 2, 3, 4, 5, 6], s2) ∧
      s2.mReadPtr = [1, 2, 3, 4, 5, 6].length % 8 ∧
      s2.mWritePtr = [1, 2, 3, 4, 5, 6].length % 8 :=
  ⟨⟨by decide, by simp [PTRDIFF_MAX], rfl, by decide⟩,
    pushBack_popFront_fifo ⟨8, 0, 2, [0, 0, 0, 0, 0, 0, 0, 0]⟩ [1, 2, 3, 4, 5, 6]
      (by decide) (by simp [PTRDIFF_MAX]) rfl (by decide)⟩

/-! ## C18: the two space reports in closed form -/

/-- C18: for every capacity `N ≥ 1` and cursors `r, w < N`, with
`d = (w - r) mod N`, `ReadSpace() = d - 1` and `WriteSpace() = N - d - 1`
(subtractions truncated at 0); hence `ReadSpace() + WriteSpace()` is `N - 1`
when the cursors are equal and `N - 2` when they differ. -/
theorem space_closed_form (s : CyclicBuffer α) (h1 : 1 ≤ s.mBufferSize)
    (hN : s.mBufferSize < SIZE_MOD) (hr : s.mReadPtr < s.mBufferSize)
    (hw : s.mWritePtr < s.mBufferSize) :
    ∃ d : Nat,
      (d : Int) = ((s.mWritePtr : Int) - (s.mReadPtr : Int)) % (s.mBufferSize : Int) ∧
      ReadSpace s = d - 1 ∧ WriteSpace s = s.mBufferSize - d - 1 ∧
      (s.mReadPtr = s.mWritePtr → ReadSpace s + WriteSpace s = s.mBufferSize - 1) ∧
      (s.mReadPtr ≠ s.mWritePtr → ReadSpace s + WriteSpace s = s.mBufferSize - 2) := by
  have hRS := ReadSpace_eq s hN hr hw
  have hWS := WriteSpace_eq s hN hr hw
  by_cases hle : s.mReadPtr ≤ s.mWritePtr
  · refine ⟨s.mWritePtr - s.mReadPtr, ?_, ?_, ?_, ?_, ?_⟩
    · rw [Int.emod_eq_of_lt (by omega) (by omega)]
      omega
    · rw [hRS]; split_ifs <;> omega
    · rw [hWS]; split_ifs; omega
    · intro _; rw [hRS, hWS]; split_ifs <;> omega
    · intro _; rw [hRS, hWS]; split_ifs <;> omega
  · refine ⟨s.mBufferSize + s.mWritePtr - s.mReadPtr, ?_, ?_, ?_, ?_, ?_⟩
    · rw [← Int.add_emod_self, Int.emod_eq_of_lt (by omega) (by omega)]
      omega
    · rw [hRS]; split_ifs <;> omega
    · rw [hWS]; split_ifs; omega
    · intro _; rw [hRS, hWS]; split_ifs <;> omega
    · intro _; rw [hRS, hWS]; split_ifs <;> omega

/-- C18, at capacity 8 with the cursors at 6 and 1: `d = (1 - 6) mod 8 = 3`. -/
theorem space_closed_form_witness :
    (1 ≤ 8 ∧ 8 < SIZE_MOD ∧ 6 < 8 ∧ 1 < 8) ∧
    ∃ d : Nat,
      (d : Int) = ((1 : Nat) - (6 : Nat) : Int) % ((8 : Nat) : Int) ∧
      ReadSpace (⟨8, 6, 1, [1, 2, 3, 4, 5, 6, 7, 8]⟩ : CyclicBuffer Nat) = d - 1 ∧
      WriteSpace (⟨8, 6, 1, [1, 2, 3, 4, 5, 6, 7, 8]⟩ : CyclicBuffer Nat) = 8 - d - 1 ∧
      (6 = 1 → ReadSpace (⟨8, 6, 1, [1, 2, 3, 4, 5, 6, 7, 8]⟩ : CyclicBuffer Nat) +
        WriteSpace (⟨8, 6, 1, [1, 2, 3, 4, 5, 6, 7, 8]⟩ : CyclicBuffer Nat) = 8 - 1) ∧
      (6 ≠ 1 → ReadSpace (⟨8, 6, 1, [1, 2, 3, 4, 5, 6, 7, 8]⟩ : CyclicBuffer Nat) +
        WriteSpace (⟨8, 6, 1, [1, 2, 3, 4, 5, 6, 7, 8]⟩ : CyclicBuffer Nat) = 8 - 2) :=
  ⟨⟨by decide, by simp [SIZE_MOD], by decide, by decide⟩,
    space_closed_form ⟨8, 6, 1, [1, 2, 3, 4, 5, 6, 7, 8]⟩ (by decide) (by simp [SIZE_MOD])
      (by decide) (by decide)⟩

/-! ## C19: how a transfer moves the space reports -/

/-- C19: for every buffer with capacity `N ≥ 1` and cursors in `[0, N)`, a
successful `WriteToBuffer` of `n` elements makes `WriteSpace()` smaller by
exactly `n`, and a successful `ReadFromBuffer` of `n` elements makes
`ReadSpace()` smaller by exactly `n` and `WriteSpace()` larger by exactly
`n`. -/
theorem transfer_moves_spaces (s : CyclicBuffer α) (n : Nat) (hwf : WellFormed s) :
    (∀ inPtr : List α, n ≤ WriteSpace s → inPtr.length = n →
      ∃ s' : CyclicBuffer α, WriteToBuffer s inPtr n = .ok (true, s') ∧
        WriteSpace s' + n = WriteSpace s) ∧
    (∀ outPtr : List α, n ≤ ReadSpace s → n ≤ outPtr.length →
      ∃ (out : List α) (s' : CyclicBuffer α),
        ReadFromBuffer s outPtr n = .ok (true, out, s') ∧
        ReadSpace s' + n = ReadSpace s ∧ WriteSpace s' = WriteSpace s + n) := by
  have hS : s.mBufferSize < SIZE_MOD := by
    have := hwf.2.1
    unfold PTRDIFF_MAX at this
    unfold SIZE_MOD
    omega
  constructor
  · intro inPtr hn hsrc
    obtain ⟨buf, hwrite, _, _⟩ := WriteToBuffer_ok s inPtr n hwf hn (by omega)
    exact ⟨_, hwrite,
      (spaces_after_write s.mBufferSize s.mReadPtr s.mWritePtr n s.mBuffer buf hS
        hwf.2.2.2.1 hwf.2.2.2.2 hn).1⟩
  · intro outPtr hn hdst
    obtain ⟨out, hread, _, _⟩ := ReadFromBuffer_ok s outPtr n hwf hn hdst
    exact ⟨out, _, hread,
      spaces_after_read s.mBufferSize s.mReadPtr s.mWritePtr n s.mBuffer hS
        hwf.2.2.2.1 hwf.2.2.2.2 hn⟩

/-- C19, at capacity 8 with the cursors at 6 and 3 (`ReadSpace() = 4`,
`WriteSpace() = 2`): a write of 2 elements and a read of 3 elements, which
goes round the end of the block. -/
theorem transfer_moves_spaces_witness :
    (WellFormed (⟨8, 6, 3, [1, 2, 3, 4, 5, 6, 7, 8]⟩ : CyclicBuffer Nat) ∧
      2 ≤ WriteSpace (⟨8, 6, 3, [1, 2, 3, 4, 5, 6, 7, 8]⟩ : CyclicBuffer Nat) ∧
      [9, 9].length = 2 ∧
      3 ≤ ReadSpace (⟨8, 6, 3, [1, 2, 3, 4, 5, 6, 7, 8]⟩ : CyclicBuffer Nat) ∧
      3 ≤ [0, 0, 0].length) ∧
    (∃ s' : CyclicBuffer Nat,
      WriteToBuffer (⟨8, 6, 3, [1, 2, 3, 4, 5, 6, 7, 8]⟩ : CyclicBuffer Nat) [9, 9] 2 =
        .ok (true, s') ∧
      WriteSpace s' + 2 =
        WriteSpace (⟨8, 6, 3, [1, 2, 3, 4, 5, 6, 7, 8]⟩ : CyclicBuffer Nat)) ∧
    (∃ (out : List Nat) (s' : CyclicBuffer Nat),
      ReadFromBuffer (⟨8, 6, 3, [1, 2, 3, 4, 5, 6, 7, 8]⟩ : CyclicBuffer Nat) [0, 0, 0] 3 =
        .ok (true, out, s') ∧
      ReadSpace s' + 3 =
        ReadSpace (⟨8, 6, 3, [1, 2, 3, 4, 5, 6, 7, 8]⟩ : CyclicBuffer Nat) ∧
      WriteSpace s' =
        WriteSpace (⟨8, 6, 3, [1, 2, 3, 4, 5, 6, 7, 8]⟩ : CyclicBuffer Nat) + 3) :=
  ⟨⟨by decide, by decide, rfl, by decide, by decide⟩,
    (transfer_moves_spaces ⟨8, 6, 3, [1, 2, 3, 4, 5, 6, 7, 8]⟩ 2 (by decide)).1 [9, 9]
      (by decide) rfl,
    (transfer_moves_spaces ⟨8, 6, 3, [1, 2, 3, 4, 5, 6, 7, 8]⟩ 3 (by decide)).2 [0, 0, 0]
      (by decide) (by decide)⟩

/-! ## C20: every access stays inside the block -/

theorem WriteToBuffer_copies (s : CyclicBuffer α) (inPtr : List α) (n : Nat)
    (hwf : WellFormed s) (hn : n ≤ WriteSpace s) :
    WriteToBuffer s inPtr n =
      ((if s.mWritePtr + n ≤ s.mBufferSize then
          memcpy s.mBuffer s.mWritePtr inPtr 0 n
        else
          memcpy s.mBuffer s.mWritePtr inPtr 0 (s.mBufferSize - s.mWritePtr) >>= fun first =>
            memcpy first 0 inPtr (s.mBufferSize - s.mWritePtr)
              (n - (s.mBufferSize - s.mWritePtr))) >>= fun buf =>
        (.ok (true, ⟨s.mBufferSize, s.mReadPtr, (s.mWritePtr + n) % s.mBufferSize, buf⟩) :
          Except (Fault α) (Bool × CyclicBuffer α))) := by
  have hlt := WriteSpace_lt s hwf
  obtain ⟨h0, hN, hlen, hr, hw⟩ := hwf
  have hN2 : s.mBufferSize ≤ 9223372036854775807 := hN
  have hupd : ∀ buf : List α,
      UpdateWritePtr (⟨s.mBufferSize, s.mReadPtr, s.mWritePtr, buf⟩ : CyclicBuffer α)
        (toSignedLong n) =
      .ok ⟨s.mBufferSize, s.mReadPtr, (s.mWritePtr + n) % s.mBufferSize, buf⟩ :=
    fun buf => UpdateWritePtr_size _ _ _ buf n h0 hN hw (by omega)
  unfold WriteToBuffer
  rw [if_neg (by omega), sizeAdd_eq (by unfold SIZE_MOD; omega)]
  by_cases hb : s.mWritePtr + n ≤ s.mBufferSize
  · rw [if_pos hb, if_pos hb]
    cases memcpy s.mBuffer s.mWritePtr inPtr 0 n with
    | error e => rfl
    | ok buf =>
      simp only [bind, Except.bind, pure, Except.pure]
      rw [hupd buf]
  · have hlenEq : sizeSub s.mBufferSize s.mWritePtr = s.mBufferSize - s.mWritePtr :=
      sizeSub_eq (by omega) (by unfold SIZE_MOD; omega)
    have hrest : sizeSub n (s.mBufferSize - s.mWritePtr) = n - (s.mBufferSize - s.mWritePtr) :=
      sizeSub_eq (by omega) (by unfold SIZE_MOD; omega)
    rw [if_neg hb, if_neg hb]
    simp only [hlenEq, hrest]
    cases memcpy s.mBuffer s.mWritePtr inPtr 0 (s.mBufferSize - s.mWritePtr) with
    | error e => rfl
    | ok first =>
      simp only [bind, Except.bind, pure, Except.pure]
      cases memcpy first 0 inPtr (s.mBufferSize - s.mWritePtr)
          (n - (s.mBufferSize - s.mWritePtr)) with
      | error e => rfl
      | ok buf =>
        simp only []
        rw [hupd buf]

theorem ReadFromBuffer_copies (s : CyclicBuffer α) (outPtr : List α) (n : Nat)
    (hwf : WellFormed s) (hn : n ≤ ReadSpace s) :
    ReadFromBuffer s outPtr n =
      ((if s.mReadPtr + n ≤ s.mBufferSize then
          memcpy outPtr 0 s.mBuffer s.mReadPtr n
        else
          memcpy outPtr 0 s.mBuffer s.mReadPtr (s.mBufferSize - s.mReadPtr) >>= fun first =>
            memcpy first (s.mBufferSize - s.mReadPtr) s.mBuffer 0
              (n - (s.mBufferSize - s.mReadPtr))) >>= fun out =>
        (.ok (true, out, ⟨s.mBufferSize, (s.mReadPtr + n) % s.mBufferSize, s.mWritePtr,
            s.mBuffer⟩) :
          Except (Fault α) (Bool × List α × CyclicBuffer α))) := by
  have hlt := ReadSpace_lt s hwf
  obtain ⟨h0, hN, hlen, hr, hw⟩ := hwf
  have hN2 : s.mBufferSize ≤ 9223372036854775807 := hN
  have hupd : UpdateReadPtr s (toSignedLong n) =
      .ok ⟨s.mBufferSize, (s.mReadPtr + n) % s.mBufferSize, s.mWritePtr, s.mBuffer⟩ :=
    UpdateReadPtr_size _ _ _ _ n h0 hN hr (by omega)
  unfold ReadFromBuffer
  rw [if_neg (by omega), sizeAdd_eq (by unfold SIZE_MOD; omega)]
  by_cases hb : s.mReadPtr + n ≤ s.mBufferSize
  · rw [if_pos hb, if_pos hb]
    cases memcpy outPtr 0 s.mBuffer s.mReadPtr n with
    | error e => rfl
    | ok out =>
      simp only [bind, Except.bind, pure, Except.pure]
      rw [hupd]
  · have hlenEq : sizeSub s.mBufferSize s.mReadPtr = s.mBufferSize - s.mReadPtr :=
      sizeSub_eq (by omega) (by unfold SIZE_MOD; omega)
    have hrest : sizeSub n (s.mBufferSize - s.mReadPtr) = n - (s.mBufferSize - s.mReadPtr) :=
      sizeSub_eq (by omega) (by unfold SIZE_MOD; omega)
    rw [if_neg hb, if_neg hb]
    simp only [hlenEq, hrest]
    cases memcpy outPtr 0 s.mBuffer s.mReadPtr (s.mBufferSize - s.mReadPtr) with
    | error e => rfl
    | ok first =>
      simp only [bind, Except.bind, pure, Except.pure]
      cases memcpy first (s.mBufferSize - s.mReadPtr) s.mBuffer 0
          (n - (s.mBufferSize - s.mReadPtr)) with
      | error e => rfl
      | ok out =>
        simp only []
        rw [hupd]

/-- C20: for every buffer with capacity `N ≥ 1` and cursors in `[0, N)`, the
accesses of a `WriteToBuffer` or `ReadFromBuffer` call that passes its space
check, of a `PushBack` or `PopFront` call that does not throw and of an
`operator[]` call that does not throw all lie inside the block of `N` slots:
no call has undefined behaviour. In the one-segment branch the copy covers
the slots `[cursor, cursor + length)`; in the split branch the first copy
covers `[cursor, N)` and the second `[0, length - (N - cursor))`, and the
offsets into the source or destination block are `0 .. N - cursor - 1` and
`N - cursor .. length - 1`. -/
theorem storage_access_in_bounds (s : CyclicBuffer α) (hwf : WellFormed s) :
    (∀ (inPtr : List α) (n : Nat), n ≤ WriteSpace s → inPtr.length = n →
      (s.mWritePtr + n ≤ s.mBufferSize →
        s.mWritePtr + n ≤ s.mBuffer.length ∧
        ∃ buf : List α, memcpy s.mBuffer s.mWritePtr inPtr 0 n = .ok buf ∧
          WriteToBuffer s inPtr n =
            .ok (true, ⟨s.mBufferSize, s.mReadPtr, (s.mWritePtr + n) % s.mBufferSize, buf⟩)) ∧
      (s.mBufferSize < s.mWritePtr + n →
        s.mWritePtr + (s.mBufferSize - s.mWritePtr) = s.mBuffer.length ∧
        0 + (n - (s.mBufferSize - s.mWritePtr)) ≤ s.mBuffer.length ∧
        (s.mBufferSize - s.mWritePtr) + (n - (s.mBufferSize - s.mWritePtr)) = inPtr.length ∧
        ∃ first buf : List α,
          memcpy s.mBuffer s.mWritePtr inPtr 0 (s.mBufferSize - s.mWritePtr) = .ok first ∧
          memcpy first 0 inPtr (s.mBufferSize - s.mWritePtr)
            (n - (s.mBufferSize - s.mWritePtr)) = .ok buf ∧
          WriteToBuffer s inPtr n =
            .ok (true, ⟨s.mBufferSize, s.mReadPtr, (s.mWritePtr + n) % s.mBufferSize,
              buf⟩))) ∧
    (∀ (outPtr : List α) (n : Nat), n ≤ ReadSpace s → outPtr.length = n →
      (s.mReadPtr + n ≤ s.mBufferSize →
        s.mReadPtr + n ≤ s.mBuffer.length ∧
        ∃ out : List α, memcpy outPtr 0 s.mBuffer s.mReadPtr n = .ok out ∧
          ReadFromBuffer s outPtr n =
            .ok (true, out, ⟨s.mBufferSize, (s.mReadPtr + n) % s.mBufferSize, s.mWritePtr,
              s.mBuffer⟩)) ∧
      (s.mBufferSize < s.mReadPtr + n →
        s.mReadPtr + (s.mBufferSize - s.mReadPtr) = s.mBuffer.length ∧
        0 + (n - (s.mBufferSize - s.mReadPtr)) ≤ s.mBuffer.length ∧
        (s.mBufferSize - s.mReadPtr) + (n - (s.mBufferSize - s.mReadPtr)) = outPtr.length ∧
        ∃ first out : List α,
          memcpy outPtr 0 s.mBuffer s.mReadPtr (s.mBufferSize - s.mReadPtr) = .ok first ∧
          memcpy first (s.mBufferSize - s.mReadPtr) s.mBuffer 0
            (n - (s.mBufferSize - s.mReadPtr)) = .ok out ∧
          ReadFromBuffer s outPtr n =
            .ok (true, out, ⟨s.mBufferSize, (s.mReadPtr + n) % s.mBufferSize, s.mWritePtr,
              s.mBuffer⟩))) ∧
    (∀ x : α, WriteSpace s ≠ 0 →
      s.mWritePtr < s.mBuffer.length ∧ ∃ s' : CyclicBuffer α, PushBack s x = .ok s') ∧
    (WriteSpace s ≠ 0 →
      s.mReadPtr < s.mBuffer.length ∧
      ∃ (x : α) (s' : CyclicBuffer α), PopFront s = .ok (x, s')) ∧
    (∀ pos : Nat, pos ≤ ReadSpace s →
      ∃ k : Nat, index s pos = .ok (k, s) ∧ k < s.mBuffer.length) := by
  have hwlt := WriteSpace_lt s hwf
  have hrlt := ReadSpace_lt s hwf
  have hwf0 := hwf
  obtain ⟨h0, hN, hlen, hr, hw⟩ := hwf
  have hN2 : s.mBufferSize ≤ 9223372036854775807 := hN
  refine ⟨?_, ?_, ?_, ?_, ?_⟩
  · intro inPtr n hn hsrc
    have hcopies := WriteToBuffer_copies s inPtr n hwf0 hn
    constructor
    · intro hb
      refine ⟨by omega, _, memcpy_ok (by omega) (by omega), ?_⟩
      rw [hcopies, if_pos hb, memcpy_ok (by omega) (by omega)]
      rfl
    · intro hb
      have hl1 := @blockCopy_length α s.mBuffer inPtr s.mWritePtr 0
        (s.mBufferSize - s.mWritePtr) (by omega) (by omega)
      refine ⟨by omega, by omega, by omega, _, _, memcpy_ok (by omega) (by omega),
        memcpy_ok (by omega) (by omega), ?_⟩
      rw [hcopies, if_neg (by omega), memcpy_ok (by omega) (by omega)]
      show (memcpy _ 0 inPtr _ _ >>= _) = _
      rw [memcpy_ok (by omega) (by omega)]
      rfl
  · intro outPtr n hn hdst
    have hcopies := ReadFromBuffer_copies s outPtr n hwf0 hn
    constructor
    · intro hb
      refine ⟨by omega, _, memcpy_ok (by omega) (by omega), ?_⟩
      rw [hcopies, if_pos hb, memcpy_ok (by omega) (by omega)]
      rfl
    · intro hb
      have hl1 := @blockCopy_length α outPtr s.mBuffer 0 s.mReadPtr
        (s.mBufferSize - s.mReadPtr) (by omega) (by omega)
      refine ⟨by omega, by omega, by omega, _, _, memcpy_ok (by omega) (by omega),
        memcpy_ok (by omega) (by omega), ?_⟩
      rw [hcopies, if_neg (by omega), memcpy_ok (by omega) (by omega)]
      show (memcpy _ _ s.mBuffer 0 _ >>= _) = _
      rw [memcpy_ok (by omega) (by omega)]
      rfl
  · intro x hws
    exact ⟨by omega, _, PushBack_ok s x hwf0 hws⟩
  · intro hws
    obtain ⟨x, _, hpop⟩ := PopFront_ok s hwf0 hws
    exact ⟨by omega, x, _, hpop⟩
  · intro pos hpos
    have hslot : (s.mReadPtr + pos) % s.mBufferSize < s.mBuffer.length := by
      rw [hlen]
      exact Nat.mod_lt _ (by omega)
    refine ⟨(s.mReadPtr + pos) % s.mBufferSize, ?_, hslot⟩
    unfold index
    rw [if_neg (by omega), if_neg (by omega), sizeAdd_eq (by unfold SIZE_MOD; omega),
      if_pos hslot]

/-- C20, at capacity 8. With the cursors at 3 and 6: a write of 2 elements in
one segment, a write of 4 elements in two segments, a read of 2 elements in
one segment, and `PushBack`, `PopFront` and `operator[](2)`. With the cursors
at 6 and 3: a read of 4 elements in two segments. -/
theorem storage_access_in_bounds_witness :
    (WellFormed (⟨8, 3, 6, [1, 2, 3, 4, 5, 6, 7, 8]⟩ : CyclicBuffer Nat) ∧
      WellFormed (⟨8, 6, 3, [1, 2, 3, 4, 5, 6, 7, 8]⟩ : CyclicBuffer Nat) ∧
      4 ≤ WriteSpace (⟨8, 3, 6, [1, 2, 3, 4, 5, 6, 7, 8]⟩ : CyclicBuffer Nat) ∧
      2 ≤ ReadSpace (⟨8, 3, 6, [1, 2, 3, 4, 5, 6, 7, 8]⟩ : CyclicBuffer Nat) ∧
      4 ≤ ReadSpace (⟨8, 6, 3, [1, 2, 3, 4, 5, 6, 7, 8]⟩ : CyclicBuffer Nat) ∧
      6 + 2 ≤ 8 ∧ 8 < 6 + 4 ∧ 3 + 2 ≤ 8) ∧
    (6 + 2 ≤ [1, 2, 3, 4, 5, 6, 7, 8].length ∧
      ∃ buf : List Nat, memcpy [1, 2, 3, 4, 5, 6, 7, 8] 6 [9, 9] 0 2 = .ok buf ∧
        WriteToBuffer (⟨8, 3, 6, [1, 2, 3, 4, 5, 6, 7, 8]⟩ : CyclicBuffer Nat) [9, 9] 2 =
          .ok (true, ⟨8, 3, (6 + 2) % 8, buf⟩)) ∧
    (6 + (8 - 6) = [1, 2, 3, 4, 5, 6, 7, 8].length ∧
      0 + (4 - (8 - 6)) ≤ [1, 2, 3, 4, 5, 6, 7, 8].length ∧
      (8 - 6) + (4 - (8 - 6)) = [9, 9, 9, 9].length ∧
      ∃ first buf : List Nat,
        memcpy [1, 2, 3, 4, 5, 6, 7, 8] 6 [9, 9, 9, 9] 0 (8 - 6) = .ok first ∧
        memcpy first 0 [9, 9, 9, 9] (8 - 6) (4 - (8 - 6)) = .ok buf ∧
        WriteToBuffer (⟨8, 3, 6, [1, 2, 3, 4, 5, 6, 7, 8]⟩ : CyclicBuffer Nat)
          [9, 9, 9, 9] 4 = .ok (true, ⟨8, 3, (6 + 4) % 8, buf⟩)) ∧
    (3 + 2 ≤ [1, 2, 3, 4, 5, 6, 7, 8].length ∧
      ∃ out : List Nat, memcpy [0, 0] 0 [1, 2, 3, 4, 5, 6, 7, 8] 3 2 = .ok out ∧
        ReadFromBuffer (⟨8, 3, 6, [1, 2, 3, 4, 5, 6, 7, 8]⟩ : CyclicBuffer Nat) [0, 0] 2 =
          .ok (true, out, ⟨8, (3 + 2) % 8, 6, [1, 2, 3, 4, 5, 6, 7, 8]⟩)) ∧
    (6 + (8 - 6) = [1, 2, 3, 4, 5, 6, 7, 8].length ∧
      0 + (4 - (8 - 6)) ≤ [1, 2, 3, 4, 5, 6, 7, 8].length ∧
      (8 - 6) + (4 - (8 - 6)) = [0, 0, 0, 0].length ∧
      ∃ first out : List Nat,
        memcpy [0, 0, 0, 0] 0 [1, 2, 3, 4, 5, 6, 7, 8] 6 (8 - 6) = .ok first ∧
        memcpy first (8 - 6) [1, 2, 3, 4, 5, 6, 7, 8] 0 (4 - (8 - 6)) = .ok out ∧
        ReadFromBuffer (⟨8, 6, 3, [1, 2, 3, 4, 5, 6, 7, 8]⟩ : CyclicBuffer Nat)
          [0, 0, 0, 0] 4 =
          .ok (true, out, ⟨8, (6 + 4) % 8, 3, [1, 2, 3, 4, 5, 6, 7, 8]⟩)) ∧
    (6 < [1, 2, 3, 4, 5, 6, 7, 8].length ∧
      ∃ s' : CyclicBuffer Nat,
        PushBack (⟨8, 3, 6, [1, 2, 3, 4, 5, 6, 7, 8]⟩ : CyclicBuffer Nat) 9 = .ok s') ∧
    (3 < [1, 2, 3, 4, 5, 6, 7, 8].length ∧
      ∃ (x : Nat) (s' : CyclicBuffer Nat),
        PopFront (⟨8, 3, 6, [1, 2, 3, 4, 5, 6, 7, 8]⟩ : CyclicBuffer Nat) = .ok (x, s')) ∧
    (∃ k : Nat,
      index (⟨8, 3, 6, [1, 2, 3, 4, 5, 6, 7, 8]⟩ : CyclicBuffer Nat) 2 =
        .ok (k, ⟨8, 3, 6, [1, 2, 3, 4, 5, 6, 7, 8]⟩) ∧
      k < [1, 2, 3, 4, 5, 6, 7, 8].length) :=
  have hA : WellFormed (⟨8, 3, 6, [1, 2, 3, 4, 5, 6, 7, 8]⟩ : CyclicBuffer Nat) := by decide
  have hB : WellFormed (⟨8, 6, 3, [1, 2, 3, 4, 5, 6, 7, 8]⟩ : CyclicBuffer Nat) := by decide
  ⟨⟨hA, hB, by decide, by decide, by decide, by decide, by decide, by decide⟩,
    ((storage_access_in_bounds ⟨8, 3, 6, [1, 2, 3, 4, 5, 6, 7, 8]⟩ hA).1 [9, 9] 2
      (by decide) rfl).1 (by decide),
    ((storage_access_in_bounds ⟨8, 3, 6, [1, 2, 3, 4, 5, 6, 7, 8]⟩ hA).1 [9, 9, 9, 9] 4
      (by decide) rfl).2 (by decide),
    ((storage_access_in_bounds ⟨8, 3, 6, [1, 2, 3, 4, 5, 6, 7, 8]⟩ hA).2.1 [0, 0] 2
      (by decide) rfl).1 (by decide),
    ((storage_access_in_bounds ⟨8, 6, 3, [1, 2, 3, 4, 5, 6, 7, 8]⟩ hB).2.1 [0, 0, 0, 0] 4
      (by decide) rfl).2 (by decide),
    (storage_access_in_bounds ⟨8, 3, 6, [1, 2, 3, 4, 5, 6, 7, 8]⟩ hA).2.2.1 9 (by decide),
    (storage_access_in_bounds ⟨8, 3, 6, [1, 2, 3, 4, 5, 6, 7, 8]⟩ hA).2.2.2.1 (by decide),
    (storage_access_in_bounds ⟨8, 3, 6, [1, 2, 3, 4, 5, 6, 7, 8]⟩ hA).2.2.2.2 2 (by decide)⟩

end cyclicbuffer
